import Mathlib

/-!
Verification of the budget-tracking and reporting aggregation core of the
expense-manager repository ("Project Implementation").  The Python sources are
shallowly embedded: monetary amounts and percentages become `ℚ`, Python
`datetime` values become `DT` (proleptic-Gregorian ordinal as in
`datetime.date.toordinal`, plus microseconds within the day), dataclasses
become structures, and fallible or stateful behaviour is made explicit.
Each embedded definition mirrors one source function and keeps its name.
-/

/-! ## Calendar arithmetic (datetime module semantics)

Python's `datetime.date` is order-isomorphic to its `toordinal()` value
(day 1 = 0001-01-01); `datetime.datetime` adds a time-of-day.  We embed a
datetime as the pair (ordinal, microseconds-of-day); component views
(year, month, day) are recovered with `ordToDate`, and `dateToOrd`
rebuilds the ordinal, exactly as the CPython `_ymd2ord` / `_ord2ymd`
helpers do.  Integer `/` and `%` here are floor division and modulus for
positive divisors, matching Python `//` and `%`. -/

/-- Gregorian leap-year test, as in `calendar.isleap` / `datetime._is_leap`. -/
def isLeap (y : Int) : Prop := y % 4 = 0 ∧ (y % 100 ≠ 0 ∨ y % 400 = 0)

instance (y : Int) : Decidable (isLeap y) := by unfold isLeap; infer_instance

/-- Days in a month, as in `datetime._days_in_month` (table `_DAYS_IN_MONTH`). -/
def daysInMonth (y m : Int) : Int :=
  if m = 2 then (if isLeap y then 29 else 28)
  else if m = 4 ∨ m = 6 ∨ m = 9 ∨ m = 11 then 30
  else 31

/-- Days in the year before month `m` (1-based); closed form of the cumulative
`_DAYS_BEFORE_MONTH` table of `datetime` (agrees with it for `1 ≤ m ≤ 12`). -/
def daysBeforeMonth (y m : Int) : Int :=
  (367 * m - 362) / 12 - (if m ≤ 2 then 0 else if isLeap y then 1 else 2)

/-- Days before January 1st of year `y`, as in `datetime._days_before_year`. -/
def daysBeforeYear (y : Int) : Int :=
  365 * (y - 1) + (y - 1) / 4 - (y - 1) / 100 + (y - 1) / 400

/-- Proleptic-Gregorian ordinal of a (year, month, day) triple, as in
`datetime._ymd2ord` (0001-01-01 is day 1). -/
def dateToOrd (y m d : Int) : Int := daysBeforeYear y + daysBeforeMonth y m + d

/-- Inverse of `dateToOrd` on valid dates, following the standard
civil-from-days computation used by `datetime._ord2ymd` (400-year eras). -/
def ordToDate (n : Int) : Int × Int × Int :=
  let z := n + 305
  let era := z / 146097
  let doe := z % 146097
  let yoe := (doe - doe / 1460 + doe / 36524 - doe / 146096) / 365
  let y0 := yoe + era * 400
  let doy := doe - (365 * yoe + yoe / 4 - yoe / 100)
  let mp := (5 * doy + 2) / 153
  let d := doy - (153 * mp + 2) / 5 + 1
  let m := if mp < 10 then mp + 3 else mp - 9
  (if m ≤ 2 then y0 + 1 else y0, m, d)

/-- A Python `datetime.datetime`: `ord` is `toordinal()` of its date part and
`t` the microseconds elapsed since midnight.  Python's comparison order on
datetimes is exactly the lexicographic order on this pair. -/
structure DT where
  ord : Int
  t : Int
deriving DecidableEq, Repr

/-- Python `datetime` comparison `a <= b` (lexicographic on date, then time). -/
def DT.le (a b : DT) : Bool := a.ord < b.ord || (a.ord = b.ord && a.t ≤ b.t)

/-- Year of the date part. -/
def DT.year (a : DT) : Int := (ordToDate a.ord).1

/-- Month of the date part. -/
def DT.month (a : DT) : Int := (ordToDate a.ord).2.1

/-- Day-of-month of the date part. -/
def DT.day (a : DT) : Int := (ordToDate a.ord).2.2

/-- `timedelta(days=k)` subtraction: shifts the date, keeps the time of day. -/
def DT.subDays (a : DT) (k : Int) : DT := ⟨a.ord - k, a.t⟩

/-- `timedelta(days=k)` addition. -/
def DT.addDays (a : DT) (k : Int) : DT := ⟨a.ord + k, a.t⟩

/-! ## Data model: `Expense` (src/models/expense.py) -/

/-- The `Expense` dataclass.  `amount` is `ℚ` (Python float used as money),
dates are `DT`, `tags` is a list of strings modelled as `List Char` so that
the comma-join/split of (de)serialization can be reasoned about. -/
structure Expense where
  amount : ℚ
  date : DT
  category : String
  vendor : String
  payment_method : String
  expense_id : String := ""
  subcategory : String := ""
  description : String := ""
  tags : List (List Char) := []
  is_recurring : Bool := false
  recurring_type : Option String := none
  recurring_action : Option String := none
  next_due_date : Option DT := none
  last_recurring_date : Option DT := none
  recurring_parent_id : Option String := none
  is_deleted : Bool := false
  deleted_at : Option DT := none
  created_at : DT := ⟨1, 0⟩
  updated_at : DT := ⟨1, 0⟩
deriving DecidableEq, Repr

/-! ## Data model: `Budget` (src/models/budget.py) -/

/-- The `Budget` dataclass.  `spent`, `rollover_amount` and `allow_rollover`
are the runtime-tracking fields set by `BudgetManager` (`__post_init__`
initialises `allow_rollover` to `rollover_enabled`, but the fields are
distinct attributes afterwards, so both are kept). -/
structure Budget where
  category : String
  amount : ℚ
  period_type : String
  period_start : DT
  budget_id : String := ""
  subcategory : String := ""
  warning_threshold : ℚ := 80
  critical_threshold : ℚ := 95
  rollover_enabled : Bool := false
  rollover_cap_percent : ℚ := 50
  previous_rollover : ℚ := 0
  notes : String := ""
  is_active : Bool := true
  spent : ℚ := 0
  rollover_amount : ℚ := 0
  allow_rollover : Bool := false
  created_at : DT := ⟨1, 0⟩
  updated_at : DT := ⟨1, 0⟩
deriving DecidableEq, Repr

/-- `dateutil.relativedelta(months := k)` on a date: add `k` months and clamp
the day-of-month to the target month's length. -/
def addMonthsClamp (ord k : Int) : Int :=
  let y := (ordToDate ord).1
  let m := (ordToDate ord).2.1
  let d := (ordToDate ord).2.2
  let idx := y * 12 + (m - 1) + k
  let y2 := idx / 12
  let m2 := idx % 12 + 1
  dateToOrd y2 m2 (min d (daysInMonth y2 m2))

/-- `Budget.period_end` property: period start plus one month / three months /
one year (by `period_type`, defaulting to monthly), minus one day; the time
of day is preserved by `relativedelta`. -/
def Budget.period_end (b : Budget) : DT :=
  if b.period_type = "monthly" then ⟨addMonthsClamp b.period_start.ord 1 - 1, b.period_start.t⟩
  else if b.period_type = "quarterly" then ⟨addMonthsClamp b.period_start.ord 3 - 1, b.period_start.t⟩
  else if b.period_type = "yearly" then ⟨addMonthsClamp b.period_start.ord 12 - 1, b.period_start.t⟩
  else ⟨addMonthsClamp b.period_start.ord 1 - 1, b.period_start.t⟩

/-- `Budget.effective_budget` property: amount plus previous rollover when
rollover is enabled. -/
def Budget.effective_budget (b : Budget) : ℚ :=
  if b.rollover_enabled then b.amount + b.previous_rollover else b.amount

/-- `Budget.get_used_percentage`: `spent / amount * 100`, or 0 when
`amount ≤ 0`. -/
def Budget.get_used_percentage (b : Budget) : ℚ :=
  if b.amount ≤ 0 then 0 else b.spent / b.amount * 100

/-- `Budget.get_remaining`: effective budget minus the tracked `spent`. -/
def Budget.get_remaining (b : Budget) : ℚ := b.effective_budget - b.spent

/-- `Budget.calculate_rollover(spent)`: 0 if rollover disabled or nothing
remains, else the remaining amount capped at
`amount * rollover_cap_percent / 100`. -/
def Budget.calculate_rollover (b : Budget) (spent : ℚ) : ℚ :=
  if ¬ b.rollover_enabled then 0
  else
    let remaining := b.effective_budget - spent
    if remaining ≤ 0 then 0
    else min remaining (b.amount * (b.rollover_cap_percent / 100))

/-! ## Budget evaluator (src/managers/budget_manager.py) -/

/-- The `BudgetStatus` enum. -/
inductive BudgetStatus where
  | under_budget
  | warning
  | critical
  | over_budget
deriving DecidableEq, Repr

/-- `config.WARNING_THRESHOLD` (= `DEFAULT_WARNING_THRESHOLD = 80.0`), the
manager-level warning threshold set in `BudgetManager.__init__`. -/
def WARNING_THRESHOLD : ℚ := 80

/-- `config.CRITICAL_THRESHOLD` (= `DEFAULT_CRITICAL_THRESHOLD = 95.0`), the
manager-level critical threshold set in `BudgetManager.__init__`. -/
def CRITICAL_THRESHOLD : ℚ := 95

/-- `BudgetManager.get_budget_status`: classifies a budget from
`get_used_percentage()` against the *manager's* thresholds
(`self.warning_threshold` / `self.critical_threshold`, i.e. the config
constants), with `amount ≤ 0` short-circuiting to UNDER_BUDGET. -/
def get_budget_status (b : Budget) : BudgetStatus :=
  if b.amount ≤ 0 then .under_budget
  else
    let percentage := b.get_used_percentage
    if 100 ≤ percentage then .over_budget
    else if CRITICAL_THRESHOLD ≤ percentage then .critical
    else if WARNING_THRESHOLD ≤ percentage then .warning
    else .under_budget

/-- `BudgetManager.calculate_spent`: total of the non-deleted expenses in the
budget's category whose date (time of day dropped, i.e. the ordinal alone)
lies in `[period_start, period_end]` inclusive.  Written as the source's
loop with `continue`-style skips. -/
def calculate_spent (b : Budget) (expenses : List Expense) : ℚ :=
  expenses.foldl
    (fun total e =>
      if e.is_deleted then total
      else if e.category ≠ b.category then total
      else if b.period_start.ord ≤ e.date.ord ∧ e.date.ord ≤ b.period_end.ord
        then total + e.amount
      else total)
    0

/-- Alert kind carried by the dict returned from
`BudgetManager.check_expense_against_budget` (its `'type'` key). -/
inductive AlertType where
  | over_budget
  | critical
  | warning
deriving DecidableEq, Repr

/-- The alert dict returned by `check_expense_against_budget` (message string
omitted; it is presentation only). -/
structure Alert where
  type : AlertType
  category : String
  percentage : ℚ
deriving DecidableEq, Repr

/-- Core of `BudgetManager.check_expense_against_budget` after the budget
lookup: recompute spent from the expense list, add the candidate amount, and
compare the new percentage (guarded for `amount ≤ 0`) and the budget's
cached old percentage against 100 / critical / warning in that order. -/
def check_expense_against_budget (b : Budget) (expenses : List Expense)
    (e : Expense) : Option Alert :=
  let current_spent := calculate_spent b expenses
  let new_spent := current_spent + e.amount
  let new_percentage := if 0 < b.amount then new_spent / b.amount * 100 else 0
  let old_percentage := b.get_used_percentage
  if 100 ≤ new_percentage ∧ old_percentage < 100 then
    some ⟨.over_budget, b.category, new_percentage⟩
  else if CRITICAL_THRESHOLD ≤ new_percentage ∧ old_percentage < CRITICAL_THRESHOLD then
    some ⟨.critical, b.category, new_percentage⟩
  else if WARNING_THRESHOLD ≤ new_percentage ∧ old_percentage < WARNING_THRESHOLD then
    some ⟨.warning, b.category, new_percentage⟩
  else none

/-- `BudgetManager.calculate_rollover(budget, rollover_cap_percentage)`: the
manager-level variant; consults `allow_rollover`, `get_remaining()` (which
uses the tracked `spent`) and caps at `amount * cap / 100`. -/
def manager_calculate_rollover (b : Budget) (rollover_cap_percentage : ℚ) : ℚ :=
  if ¬ b.allow_rollover then 0
  else
    let remaining := b.get_remaining
    if remaining ≤ 0 then 0
    else min remaining (b.amount * (rollover_cap_percentage / 100))

/-! ## Aggregator (src/reports/report_generator.py)

Python's `defaultdict` grouping preserves first-seen key order (dict
insertion order); we embed the accumulating dict as an association list
whose entries carry the summed amount and the count, with new keys appended
at the end.  `list.sort(key=..., reverse=True)` is a stable sort; we embed
it as a stable insertion sort, which is extensionally equal to any stable
sort with the same comparison. -/

/-- One `defaultdict(lambda: dict(amount := 0.0, count := 0))` update: add the
amount to the existing entry for `k`, or append a fresh entry. -/
def updAssoc {κ : Type} [DecidableEq κ] (k : κ) (amt : ℚ) :
    List (κ × ℚ × Nat) → List (κ × ℚ × Nat)
  | [] => [(k, amt, 1)]
  | (k2, a, c) :: rest =>
    if k2 = k then (k2, a + amt, c + 1) :: rest
    else (k2, a, c) :: updAssoc k amt rest

/-- The grouping loop: fold the expense list into the association list,
keyed by `key`. -/
def groupBy {κ : Type} [DecidableEq κ] (key : Expense → κ)
    (expenses : List Expense) : List (κ × ℚ × Nat) :=
  expenses.foldl (fun acc e => updAssoc (key e) e.amount acc) []

/-- First value in the association list for key `k`, or the zero default
(`dict.get(key, dict(amount := 0.0, count := 0))`). -/
def lookupAssoc {κ : Type} [DecidableEq κ] (k : κ)
    (l : List (κ × ℚ × Nat)) : ℚ × Nat :=
  match l with
  | [] => (0, 0)
  | (k2, a, c) :: rest => if k2 = k then (a, c) else lookupAssoc k rest

/-- One row of a breakdown result (`category`/`payment_method` key plus
amount, count, percentage, average). -/
structure BreakdownRow where
  key : String
  amount : ℚ
  count : Nat
  percentage : ℚ
  average : ℚ
deriving DecidableEq, Repr

/-- Stable descending insertion: place `x` before the first row whose amount
is `≤ x.amount`; rows with strictly larger amounts, and earlier-seen rows of
equal amount, stay in front. -/
def insertDesc (x : BreakdownRow) : List BreakdownRow → List BreakdownRow
  | [] => [x]
  | y :: ys => if y.amount ≤ x.amount then x :: y :: ys else y :: insertDesc x ys

/-- Stable sort by amount, descending: the embedding of
`result.sort(key=lambda r: r.amount, reverse=True)` (Python's sort is
stable; ties keep first-seen order). -/
def sortByAmountDesc : List BreakdownRow → List BreakdownRow
  | [] => []
  | x :: xs => insertDesc x (sortByAmountDesc xs)

/-- Shared body of `ReportGenerator.get_category_breakdown` and
`ReportGenerator.get_payment_method_breakdown` (identical grouping,
totalling, percentage and sort logic; they differ only in the grouping
key, the output key name, and that the payment-method rows omit the
`average` entry — carried here for both, harmlessly): group by the key,
total all amounts, emit percentage (`amount / total * 100` when the
total is positive, else 0) and average, then sort descending by
amount. -/
def breakdownBy (key : Expense → String) (expenses : List Expense) :
    List BreakdownRow :=
  if expenses = [] then []
  else
    let total := (expenses.map (·.amount)).sum
    let rows := (groupBy key expenses).map (fun g =>
      { key := g.1
        amount := g.2.1
        count := g.2.2
        percentage := if 0 < total then g.2.1 / total * 100 else 0
        average := if 0 < g.2.2 then g.2.1 / (g.2.2 : ℚ) else 0 })
    sortByAmountDesc rows

/-- `ReportGenerator.get_category_breakdown`. -/
def get_category_breakdown (expenses : List Expense) : List BreakdownRow :=
  breakdownBy (·.category) expenses

/-- `ReportGenerator.get_payment_method_breakdown`. -/
def get_payment_method_breakdown (expenses : List Expense) : List BreakdownRow :=
  breakdownBy (·.payment_method) expenses

/-! ## Time-based trends (src/reports/report_generator.py) -/

/-- The `'%Y-%m'` grouping key of `get_monthly_trend` as a (year, month)
pair (the zero-padded string key is in bijection with the pair). -/
def monthKeyOf (d : DT) : Int × Int := (d.year, d.month)

/-- One row of `get_monthly_trend` (the `month_name` display string is
omitted). -/
structure MonthRow where
  year : Int
  month : Int
  amount : ℚ
  count : Nat
deriving DecidableEq, Repr

/-- The successor month, as stepped by the source's
`if current.month == 12: replace(year+1, month=1) else replace(month+1)`. -/
def nextYM (ym : Int × Int) : Int × Int :=
  if ym.2 = 12 then (ym.1 + 1, 1) else (ym.1, ym.2 + 1)

/-- The `while current <= end_date` loop of `get_monthly_trend`: `current`
is always the first of a month at the fixed time of day `t`, so its
ordinal is `dateToOrd y m 1`; each iteration emits the bucket for
`(y, m)` (zero default when absent from the grouped data) and steps to the
next month. -/
def monthLoop (endDT : DT) (t : Int) (data : List ((Int × Int) × ℚ × Nat))
    (y m : Int) : List MonthRow :=
  if DT.le ⟨dateToOrd y m 1, t⟩ endDT then
    let v := lookupAssoc (y, m) data
    ⟨y, m, v.1, v.2⟩ ::
      (if m = 12 then monthLoop endDT t data (y + 1) 1
       else monthLoop endDT t data y (m + 1))
  else []
termination_by (endDT.ord + 1 - dateToOrd y m 1).toNat
decreasing_by
  · rename_i hguard hm
    subst hm
    have hle : dateToOrd y 12 1 ≤ endDT.ord := by
      simp only [DT.le, Bool.or_eq_true, decide_eq_true_eq, Bool.and_eq_true] at hguard
      omega
    have hstep : dateToOrd y 12 1 < dateToOrd (y + 1) 1 1 := by
      simp only [dateToOrd, daysBeforeYear, daysBeforeMonth, isLeap]
      split_ifs <;> omega
    omega
  · rename_i hguard _hm
    have hle : dateToOrd y m 1 ≤ endDT.ord := by
      simp only [DT.le, Bool.or_eq_true, decide_eq_true_eq, Bool.and_eq_true] at hguard
      omega
    have hstep : dateToOrd y m 1 < dateToOrd y (m + 1) 1 := by
      simp only [dateToOrd, daysBeforeYear, daysBeforeMonth, isLeap]
      split_ifs <;> omega
    omega

/-- `ReportGenerator.get_monthly_trend`: empty input short-circuits to `[]`;
otherwise filter to `e.date >= now - months*30 days`, group by calendar
month, and emit one (possibly zero-filled) bucket for every month from the
month of the range start while the first of the month (at the range start's
time of day) is `<= now`. -/
def get_monthly_trend (now : DT) (expenses : List Expense) (months : Nat) :
    List MonthRow :=
  if expenses = [] then []
  else
    let end_date := now
    let start_date := now.subDays (months * 30)
    let filtered := expenses.filter (fun e => DT.le start_date e.date)
    let monthly_data := groupBy (fun e => monthKeyOf e.date) filtered
    monthLoop end_date start_date.t monthly_data start_date.year start_date.month

/-- One row of `get_daily_trend` (the `day_name` display string is omitted);
the `'%Y-%m-%d'` key is carried as the date ordinal. -/
structure DayRow where
  ord : Int
  amount : ℚ
  count : Nat
deriving DecidableEq, Repr

/-- The `while current <= end_date` loop of `get_daily_trend`, stepping one
day at a time at the fixed time of day `t`. -/
def dayLoop (endDT : DT) (t : Int) (data : List (Int × ℚ × Nat)) (o : Int) :
    List DayRow :=
  if DT.le ⟨o, t⟩ endDT then
    let v := lookupAssoc o data
    ⟨o, v.1, v.2⟩ :: dayLoop endDT t data (o + 1)
  else []
termination_by (endDT.ord + 1 - o).toNat
decreasing_by
  simp only [DT.le, Bool.or_eq_true, decide_eq_true_eq, Bool.and_eq_true] at *
  omega

/-- `ReportGenerator.get_daily_trend`: empty input short-circuits to `[]`;
otherwise one bucket per day from `now - days` to `now` inclusive,
zero-filled from the per-day grouping of the filtered expenses. -/
def get_daily_trend (now : DT) (expenses : List Expense) (days : Nat) :
    List DayRow :=
  if expenses = [] then []
  else
    let start_date := now.subDays days
    let filtered := expenses.filter (fun e => DT.le start_date e.date)
    let daily_data := groupBy (fun e => e.date.ord) filtered
    dayLoop now start_date.t daily_data start_date.ord

/-- The `'%Y-W%W'` grouping key of `get_weekly_trend` as a (year, week)
pair: `%W` counts weeks of the year with Monday as the first day, days
before the first Monday being week 0 (the zero-padded string key is in
bijection with the pair and string order matches pair order for four-digit
years). -/
def weekKeyOf (d : DT) : Int × Int :=
  let y := d.year
  let doy := d.ord - dateToOrd y 1 1 + 1
  let wd := (d.ord - 1) % 7
  (y, (doy - wd + 6) / 7)

/-- One row of `get_weekly_trend`. -/
structure WeekRow where
  year : Int
  week : Int
  amount : ℚ
  count : Nat
deriving DecidableEq, Repr

/-- Ascending comparison on (year, week) keys, matching the lexicographic
order `sorted()` uses on the zero-padded `'%Y-W%W'` strings. -/
def weekKeyLe (a b : Int × Int) : Bool := a.1 < b.1 || (a.1 = b.1 && a.2 ≤ b.2)

/-- Ascending stable insertion for week keys. -/
def insertWeekKey (x : Int × Int) : List (Int × Int) → List (Int × Int)
  | [] => [x]
  | y :: ys => if weekKeyLe x y then x :: y :: ys else y :: insertWeekKey x ys

/-- `sorted(weekly_data.keys())`. -/
def sortWeekKeys : List (Int × Int) → List (Int × Int)
  | [] => []
  | x :: xs => insertWeekKey x (sortWeekKeys xs)

/-- `ReportGenerator.get_weekly_trend`: empty input short-circuits to `[]`;
otherwise group the filtered expenses by ISO-style `%W` week and emit one
row per *occupied* week in sorted key order — unlike the monthly and daily
trends, no zero-filled buckets are generated for empty weeks. -/
def get_weekly_trend (now : DT) (expenses : List Expense) (weeks : Nat) :
    List WeekRow :=
  if expenses = [] then []
  else
    let start_date := now.subDays (weeks * 7)
    let filtered := expenses.filter (fun e => DT.le start_date e.date)
    let weekly_data := groupBy (fun e => weekKeyOf e.date) filtered
    (sortWeekKeys (weekly_data.map (·.1))).map (fun k =>
      let v := lookupAssoc k weekly_data
      ⟨k.1, k.2, v.1, v.2⟩)

/-! ## Report assembly and soft-delete filtering
(src/reports/report_generator.py) -/

/-- The active (non-soft-deleted) sub-list of a record list. -/
def activeRecords (expenses : List Expense) : List Expense :=
  expenses.filter (fun e => !e.is_deleted)

/-- The `month_expenses` filter of `generate_monthly_report`: records dated
within `[month_start, month_end]` and not soft-deleted. -/
def month_expenses (month_start month_end : DT) (expenses : List Expense) :
    List Expense :=
  expenses.filter (fun e =>
    DT.le month_start e.date && DT.le e.date month_end && !e.is_deleted)

/-- The `'by_category'` section of `generate_monthly_report`: the category
breakdown of the month's active records. -/
def monthly_report_by_category (month_start month_end : DT)
    (expenses : List Expense) : List BreakdownRow :=
  get_category_breakdown (month_expenses month_start month_end expenses)

/-- Result of `ReportGenerator.get_recurring_expense_summary`. -/
structure RecurringSummary where
  recurring_count : Nat
  recurring_total : ℚ
  recurring_percentage : ℚ
  non_recurring_count : Nat
  non_recurring_total : ℚ
  non_recurring_percentage : ℚ
  total : ℚ
deriving DecidableEq, Repr

/-- `ReportGenerator.get_recurring_expense_summary`: splits the active
records into recurring and non-recurring and totals each side. -/
def get_recurring_expense_summary (expenses : List Expense) :
    RecurringSummary :=
  let recurring := expenses.filter (fun e => e.is_recurring && !e.is_deleted)
  let non_recurring := expenses.filter (fun e => !e.is_recurring && !e.is_deleted)
  let recurring_total := (recurring.map (·.amount)).sum
  let non_recurring_total := (non_recurring.map (·.amount)).sum
  let total := recurring_total + non_recurring_total
  { recurring_count := recurring.length
    recurring_total := recurring_total
    recurring_percentage := if 0 < total then recurring_total / total * 100 else 0
    non_recurring_count := non_recurring.length
    non_recurring_total := non_recurring_total
    non_recurring_percentage := if 0 < total then non_recurring_total / total * 100 else 0
    total := total }

/-- One row of `ReportGenerator.get_budget_vs_actual`. -/
structure BudgetVsActualRow where
  category : String
  budget : ℚ
  actual : ℚ
  variance : ℚ
  variance_percentage : ℚ
  used_percentage : ℚ
  over : Bool
deriving DecidableEq, Repr

/-- `ReportGenerator.get_budget_vs_actual`: for each budget, totals the
active records of its category dated within its period (full datetime
comparison here, unlike `calculate_spent`). -/
def get_budget_vs_actual (expenses : List Expense) (budgets : List Budget) :
    List BudgetVsActualRow :=
  budgets.map (fun b =>
    let budget_expenses := expenses.filter (fun e =>
      e.category == b.category && DT.le b.period_start e.date &&
        DT.le e.date b.period_end && !e.is_deleted)
    let actual := (budget_expenses.map (·.amount)).sum
    { category := b.category
      budget := b.amount
      actual := actual
      variance := b.amount - actual
      variance_percentage := if (0 : ℚ) < b.amount then (b.amount - actual) / b.amount * 100 else 0
      used_percentage := if (0 : ℚ) < b.amount then actual / b.amount * 100 else 0
      over := b.amount < actual })

/-! ## The `calculate_basic_stats` / `StatisticalSummary` mismatch
(src/reports/report_generator.py lines 42-93,
src/models/statistical_summary.py lines 10-73)

`calculate_basic_stats` constructs `StatisticalSummary(...)` by keyword.
A Python dataclass `__init__` accepts exactly the declared fields as
keywords and requires every field without a default.  The lists below
transcribe the declared fields of `StatisticalSummary` and the keyword
arguments of the two construction sites in `calculate_basic_stats`. -/

/-- The declared fields of the `StatisticalSummary` dataclass, in source
order (these are the only keywords its `__init__` accepts). -/
def statisticalSummaryFields : List String :=
  ["period_start", "period_end", "total_amount", "expense_count",
   "average_amount", "median_amount", "min_amount", "max_amount",
   "std_deviation", "by_category", "by_subcategory", "by_vendor",
   "by_payment_method", "by_month", "by_day_of_week", "trend_data",
   "comparison_data", "top_expenses", "recurring_total", "recurring_count",
   "budget_status"]

/-- The `StatisticalSummary` fields declared without a default value (they
must be supplied at every construction). -/
def statisticalSummaryRequiredFields : List String :=
  ["period_start", "period_end"]

/-- The keyword arguments `calculate_basic_stats` passes to
`StatisticalSummary(...)` in its empty-input branch (lines 56-66). -/
def calculateBasicStatsEmptyKwargs : List String :=
  ["total_amount", "average_amount", "min_amount", "max_amount",
   "expense_count", "category_totals", "payment_method_totals",
   "date_from", "date_to"]

/-- The keyword arguments `calculate_basic_stats` passes to
`StatisticalSummary(...)` in its non-empty branch (lines 81-92). -/
def calculateBasicStatsNonEmptyKwargs : List String :=
  ["total_amount", "average_amount", "min_amount", "max_amount",
   "expense_count", "category_totals", "payment_method_totals",
   "date_from", "date_to", "median_amount", "std_deviation"]

/-- Python-dataclass call semantics: a keyword call raises `TypeError` iff
it passes a keyword that is not a declared field, or omits a field that
has no default. -/
def dataclassCallRaisesTypeError (kwargs fields required : List String) : Bool :=
  kwargs.any (fun k => !(fields.contains k)) ||
    required.any (fun k => !(kwargs.contains k))

/-! ## The `estimate_monthly_recurring` attribute error
(src/reports/report_generator.py lines 704-736, src/models/expense.py) -/

/-- Every attribute an `Expense` instance exposes: the dataclass fields
followed by its methods.  There is no `recurring_frequency` attribute —
the frequency field is named `recurring_type`. -/
def expenseAttributeNames : List String :=
  ["amount", "date", "category", "vendor", "payment_method", "expense_id",
   "subcategory", "description", "tags", "is_recurring", "recurring_type",
   "recurring_action", "next_due_date", "last_recurring_date",
   "recurring_parent_id", "is_deleted", "deleted_at", "created_at",
   "updated_at", "to_dict", "from_dict", "soft_delete", "restore", "update",
   "validate", "copy"]

/-- The records `estimate_monthly_recurring` iterates over (line 719):
active recurring expenses.  For each of them the loop body reads
`expense.recurring_frequency` (line 722). -/
def estimateMonthlyRecurringTargets (expenses : List Expense) : List Expense :=
  expenses.filter (fun e => e.is_recurring && !e.is_deleted)

/-- Modelled from the spec: the intended monthly-equivalent conversion of
section 4.3 ("daily×30, weekly×4, biweekly×2, monthly×1, quarterly÷3,
annually÷12"), which the loop body of `estimate_monthly_recurring`
transcribes over the (nonexistent) `recurring_frequency` attribute; used to
state what the failing code was meant to compute. -/
def specMonthlyMultiple (freq : Option String) (amount : ℚ) : ℚ :=
  if freq = some "daily" then amount * 30
  else if freq = some "weekly" then amount * 4
  else if freq = some "biweekly" then amount * 2
  else if freq = some "monthly" then amount
  else if freq = some "quarterly" then amount / 3
  else if freq = some "annually" then amount / 12
  else 0

/-! ## Row (de)serialization of `Expense` (src/models/expense.py)

`to_dict` / `from_dict` exchange a flat row.  String cells that are
formatted dates are carried as the information they denote: a
`'%Y-%m-%d'` cell as the date ordinal, a `'%Y-%m-%d %H:%M:%S'` cell as
(ordinal, seconds-of-day) — both formats are bijective images of that
data, and the second one drops microseconds.  The comma-joined tags cell
is carried as the actual character string. -/

/-- Python `str.strip()` whitespace test. -/
def isPySpace (c : Char) : Bool :=
  c = ' ' || c = '\t' || c = '\n' || c = '\r' || c = '\x0b' || c = '\x0c'

/-- Python `str.strip()`: drop whitespace from both ends. -/
def pyStrip (s : List Char) : List Char :=
  ((s.dropWhile isPySpace).reverse.dropWhile isPySpace).reverse

/-- Python `','.join(tags)`. -/
def joinComma : List (List Char) → List Char
  | [] => []
  | [t] => t
  | t :: ts => t ++ ',' :: joinComma ts

/-- Python `s.split(',')` (note `''.split(',') == ['']`). -/
def splitComma : List Char → List (List Char)
  | [] => [[]]
  | c :: rest =>
    if c = ',' then [] :: splitComma rest
    else
      match splitComma rest with
      | [] => [[c]]
      | t :: ts => (c :: t) :: ts

/-- The tag parsing of `from_dict` / `__post_init__`:
`[t.strip() for t in tags.split(',') if t.strip()]`. -/
def parseTags (s : List Char) : List (List Char) :=
  ((splitComma s).map pyStrip).filter (fun t => t ≠ [])

/-- The row written by `Expense.to_dict` (field per CSV column; display
formatting of dates replaced by the data it carries, see above). -/
structure ExpenseRow where
  expense_id : String
  amount : ℚ
  date : Int
  category : String
  subcategory : String
  vendor : String
  payment_method : String
  description : String
  tags : List Char
  is_recurring : Bool
  recurring_type : String
  recurring_action : String
  next_due_date : Option Int
  last_recurring_date : Option Int
  recurring_parent_id : String
  is_deleted : Bool
  deleted_at : Option (Int × Int)
  created_at : Int × Int
  updated_at : Int × Int
deriving DecidableEq, Repr

/-- `Expense.to_dict`: `date` keeps only `'%Y-%m-%d'` (ordinal), optional
strings become `''` via `x or ''`, tags are comma-joined, timestamps keep
`'%Y-%m-%d %H:%M:%S'` (ordinal and whole seconds — microseconds dropped). -/
def Expense.to_dict (e : Expense) : ExpenseRow :=
  { expense_id := e.expense_id
    amount := e.amount
    date := e.date.ord
    category := e.category
    subcategory := e.subcategory
    vendor := e.vendor
    payment_method := e.payment_method
    description := e.description
    tags := if e.tags = [] then [] else joinComma e.tags
    is_recurring := e.is_recurring
    recurring_type := e.recurring_type.getD ""
    recurring_action := e.recurring_action.getD ""
    next_due_date := e.next_due_date.map (·.ord)
    last_recurring_date := e.last_recurring_date.map (·.ord)
    recurring_parent_id := e.recurring_parent_id.getD ""
    is_deleted := e.is_deleted
    deleted_at := e.deleted_at.map (fun d => (d.ord, d.t / 1000000))
    created_at := (e.created_at.ord, e.created_at.t / 1000000)
    updated_at := (e.updated_at.ord, e.updated_at.t / 1000000) }

/-- `Expense.from_dict` on a row produced by `to_dict`: an empty
`expense_id` cell is replaced by a fresh UUID (`freshId`); `parse_date` of
a `'%Y-%m-%d'` cell yields midnight of that date (the `or datetime.now()`
fallback, passed in as `now`, is unreachable for such cells); empty
optional-string cells become `None`; timestamps are rebuilt from whole
seconds. -/
def Expense.from_dict (row : ExpenseRow) (freshId : String) (_now : DT) :
    Expense :=
  { expense_id := if row.expense_id = "" then freshId else row.expense_id
    amount := row.amount
    date := ⟨row.date, 0⟩
    category := row.category
    subcategory := row.subcategory
    vendor := row.vendor
    payment_method := row.payment_method
    description := row.description
    tags := parseTags row.tags
    is_recurring := row.is_recurring
    recurring_type := if row.recurring_type = "" then none else some row.recurring_type
    recurring_action := if row.recurring_action = "" then none else some row.recurring_action
    next_due_date := row.next_due_date.map (fun o => ⟨o, 0⟩)
    last_recurring_date := row.last_recurring_date.map (fun o => ⟨o, 0⟩)
    recurring_parent_id := if row.recurring_parent_id = "" then none else some row.recurring_parent_id
    is_deleted := row.is_deleted
    deleted_at := row.deleted_at.map (fun p => ⟨p.1, p.2 * 1000000⟩)
    created_at := ⟨row.created_at.1, row.created_at.2 * 1000000⟩
    updated_at := ⟨row.updated_at.1, row.updated_at.2 * 1000000⟩ }

/-- `Expense.validate` (the definition of a *valid* transaction record):
the list of field errors, empty iff the record is valid.  Python's falsy
test on the optional recurring strings treats both `None` and `''` as
missing. -/
def Expense.validate (now : DT) (e : Expense) : List String :=
  (if e.amount ≤ 0 then ["Amount must be positive"] else []) ++
  (if 10000000 < e.amount then ["Amount cannot exceed 10,000,000"] else []) ++
  (if e.category = "" then ["Category is required"] else []) ++
  (if e.vendor = "" then ["Vendor is required"] else []) ++
  (if e.payment_method = "" then ["Payment method is required"] else []) ++
  (if ¬ (DT.le e.date now = true) then ["Date cannot be in the future"] else []) ++
  (if e.is_recurring then
    (if e.recurring_type.getD "" = "" then ["Recurring type is required for recurring expenses"] else []) ++
    (if e.recurring_action.getD "" = "" then ["Recurring action is required for recurring expenses"] else [])
  else [])

/-- Serialize then parse back (`from_dict(to_dict(e))`). -/
def expenseRoundtrip (e : Expense) (freshId : String) (now : DT) : Expense :=
  Expense.from_dict (Expense.to_dict e) freshId now

/-- A well-formed tag (the row format can only carry these faithfully):
non-empty, comma-free, and with no surrounding whitespace. -/
def wfTag (t : List Char) : Prop := t ≠ [] ∧ ',' ∉ t ∧ pyStrip t = t

instance (t : List Char) : Decidable (wfTag t) := by unfold wfTag; infer_instance

/-! ## Spec-side definitions (used to state the claims against the code) -/

/-- Stated from the spec: `calculateSpent` as "the sum of the amounts of
active records matching the budget's category whose date (time of day
dropped) lies within the inclusive period" — a filter/sum pipeline, to be
compared with the source's fold `calculate_spent`. -/
def specSpentSum (b : Budget) (expenses : List Expense) : ℚ :=
  ((expenses.filter (fun e =>
      !e.is_deleted && e.category == b.category &&
        decide (b.period_start.ord ≤ e.date.ord) &&
        decide (e.date.ord ≤ b.period_end.ord))).map (·.amount)).sum

/-- Stated from the spec: the three crossing boundaries of
`checkThresholdCrossing` in checked order — over-budget (100), critical,
warning. -/
def specCrossingBoundaries : List (ℚ × AlertType) :=
  [(100, .over_budget), (CRITICAL_THRESHOLD, .critical),
   (WARNING_THRESHOLD, .warning)]

/-- Stated from the spec: the first boundary (in checked order) that the
new percentage reaches while the old percentage had not yet reached it. -/
def specFirstCrossing (oldP newP : ℚ) : Option AlertType :=
  (specCrossingBoundaries.find? (fun p =>
    decide (p.1 ≤ newP) && decide (oldP < p.1))).map (·.2)

/-- The (year, month) bucket index of a datetime. -/
def monthIdxOf (d : DT) : Int := d.year * 12 + (d.month - 1)

/-- Stated from the spec: "the number of calendar buckets in the requested
range" of the monthly trend — the count of calendar months from the month
of `now - months*30 days` through the month of `now`. -/
def specMonthBucketCount (now : DT) (months : Nat) : Int :=
  monthIdxOf now - monthIdxOf (now.subDays (months * 30)) + 1

/-! ## Concrete instances used in witnesses and counterexamples -/

/-- A plain active expense (Supplies, 100 L). -/
def exSupplies100 : Expense :=
  { amount := 100, date := ⟨739895, 0⟩, category := "Supplies",
    vendor := "VendorA", payment_method := "Cash", expense_id := "id-a" }

/-- A second Supplies expense (200 L). -/
def exSupplies200 : Expense :=
  { amount := 200, date := ⟨739896, 0⟩, category := "Supplies",
    vendor := "VendorB", payment_method := "Cash", expense_id := "id-b" }

/-- An Equipment expense (50 L). -/
def exEquipment50 : Expense :=
  { amount := 50, date := ⟨739897, 0⟩, category := "Equipment",
    vendor := "VendorC", payment_method := "Credit Card", expense_id := "id-c" }

/-- A soft-deleted Supplies expense (100 L). -/
def exDeletedSupplies : Expense :=
  { amount := 100, date := ⟨739895, 0⟩, category := "Supplies",
    vendor := "VendorA", payment_method := "Cash", expense_id := "id-d",
    is_deleted := true, deleted_at := some ⟨739896, 0⟩ }

/-- An active recurring expense (monthly, 100 L). -/
def exRecurringMonthly : Expense :=
  { amount := 100, date := ⟨739895, 0⟩, category := "Facilities",
    vendor := "Landlord", payment_method := "Bank Transfer",
    expense_id := "id-e", is_recurring := true,
    recurring_type := some "monthly", recurring_action := some "reminder" }

/-- A budget with per-budget thresholds 50/70 (valid: 0-100, warning <
critical) whose usage sits at 60 percent. -/
def cexBudgetOwnThresholds : Budget :=
  { category := "Supplies", amount := 100, period_type := "monthly",
    period_start := ⟨739890, 0⟩, budget_id := "b-1",
    warning_threshold := 50, critical_threshold := 70, spent := 60 }

/-- A budget at 85 percent of 1000 L. -/
def exBudgetWarning : Budget :=
  { category := "Supplies", amount := 1000, period_type := "monthly",
    period_start := ⟨739890, 0⟩, budget_id := "b-2", spent := 850 }

/-- A disabled budget (amount 0) with nonzero spend. -/
def exBudgetZero : Budget :=
  { category := "Supplies", amount := 0, period_type := "monthly",
    period_start := ⟨739890, 0⟩, budget_id := "b-3", spent := 10 }

/-- An October 2026 Supplies budget of 1000 L with 750 L spent. -/
def exBudgetC4 : Budget :=
  { category := "Supplies", amount := 1000, period_type := "monthly",
    period_start := ⟨739890, 0⟩, budget_id := "b-4", spent := 750 }

/-- The existing 750 L expense backing `exBudgetC4`'s spent figure. -/
def exExisting750 : Expense :=
  { amount := 750, date := ⟨739895, 0⟩, category := "Supplies",
    vendor := "V", payment_method := "Cash", expense_id := "id-f" }

/-- A candidate 70 L expense that pushes `exBudgetC4` from 75 to 82
percent. -/
def exCandidate70 : Expense :=
  { amount := 70, date := ⟨739896, 0⟩, category := "Supplies",
    vendor := "V", payment_method := "Cash", expense_id := "id-g" }

/-- A rollover-enabled budget: 1000 L, cap 50 percent. -/
def exBudgetRollover : Budget :=
  { category := "Supplies", amount := 1000, period_type := "monthly",
    period_start := ⟨739890, 0⟩, budget_id := "b-5",
    rollover_enabled := true, allow_rollover := true,
    rollover_cap_percent := 50, previous_rollover := 0, spent := 400 }

/-- A fully populated expense whose row round trip is exact up to the
documented date/timestamp normalization. -/
def exRoundtrip : Expense :=
  { amount := 100, date := ⟨739895, 43200000000⟩, category := "Supplies",
    vendor := "VendorA", payment_method := "Cash", expense_id := "id-1",
    subcategory := "Cleaning", description := "soap",
    tags := [['a'], ['b', 'c']], is_recurring := true,
    recurring_type := some "monthly", recurring_action := some "reminder",
    next_due_date := some ⟨739925, 3600000000⟩,
    last_recurring_date := some ⟨739865, 0⟩,
    recurring_parent_id := some "parent-1", is_deleted := true,
    deleted_at := some ⟨739900, 5000000⟩, created_at := ⟨739890, 1000000⟩,
    updated_at := ⟨739890, 2000000⟩ }

/-- A valid expense that the row round trip does not restore: one tag
contains a comma and `created_at` carries one microsecond. -/
def cexRoundtrip : Expense :=
  { amount := 100, date := ⟨739895, 0⟩, category := "Supplies",
    vendor := "VendorA", payment_method := "Cash", expense_id := "id-2",
    tags := [['a', ',', 'b']], created_at := ⟨739890, 1⟩,
    updated_at := ⟨739890, 0⟩ }

/-- An expense two calendar weeks before `exSupplies100`
(2026-09-25, week 38 of 2026, vs week 40). -/
def exFarWeek : Expense :=
  { amount := 20, date := ⟨739884, 0⟩, category := "Supplies",
    vendor := "VendorD", payment_method := "Cash", expense_id := "id-h" }

/-- A reference "now" instant (2026-10-12 12:00:00). -/
def exNow : DT := ⟨739901, 43200000000⟩

/-! ## Helper lemmas: grouping -/

/-- Updating preserves the total of the summed amounts, adding the new one. -/
theorem updAssoc_sum {κ : Type} [DecidableEq κ] (k : κ) (amt : ℚ)
    (l : List (κ × ℚ × Nat)) :
    ((updAssoc k amt l).map (fun g => g.2.1)).sum =
      (l.map (fun g => g.2.1)).sum + amt := by
  induction l with
  | nil => simp [updAssoc]
  | cons g rest ih =>
    obtain ⟨k2, a, c⟩ := g
    by_cases h : k2 = k <;> simp [updAssoc, h, ih] <;> ring

/-- The grouped amounts total the amounts of the grouped records. -/
theorem groupBy_sum {κ : Type} [DecidableEq κ] (key : Expense → κ)
    (es : List Expense) :
    ((groupBy key es).map (fun g => g.2.1)).sum = (es.map (·.amount)).sum := by
  suffices h : ∀ acc : List (κ × ℚ × Nat),
      ((es.foldl (fun acc e => updAssoc (key e) e.amount acc) acc).map
        (fun g => g.2.1)).sum =
        (acc.map (fun g => g.2.1)).sum + (es.map (·.amount)).sum by
    simpa using h []
  induction es with
  | nil => intro acc; simp
  | cons e rest ih =>
    intro acc
    simp only [List.foldl_cons, List.map_cons, List.sum_cons]
    rw [ih, updAssoc_sum]
    ring

/-- Updating keeps every count positive. -/
theorem updAssoc_count_pos {κ : Type} [DecidableEq κ] (k : κ) (amt : ℚ)
    (l : List (κ × ℚ × Nat)) (hl : ∀ g ∈ l, 1 ≤ g.2.2) :
    ∀ g ∈ updAssoc k amt l, 1 ≤ g.2.2 := by
  induction l with
  | nil => simp [updAssoc]
  | cons g0 rest ih =>
    obtain ⟨k2, a, c⟩ := g0
    have hrest : ∀ g ∈ rest, 1 ≤ g.2.2 :=
      fun g hg => hl g (List.mem_cons_of_mem _ hg)
    have hhead : 1 ≤ c := hl (k2, a, c) (List.mem_cons_self _ _)
    intro g hg
    by_cases h : k2 = k
    · rw [updAssoc, if_pos h] at hg
      rcases List.mem_cons.mp hg with rfl | hg2
      · exact Nat.le_succ_of_le hhead
      · exact hrest g hg2
    · rw [updAssoc, if_neg h] at hg
      rcases List.mem_cons.mp hg with rfl | hg2
      · exact hhead
      · exact ih hrest g hg2

/-- Every group produced by `groupBy` covers at least one record. -/
theorem groupBy_count_pos {κ : Type} [DecidableEq κ] (key : Expense → κ)
    (es : List Expense) : ∀ g ∈ groupBy key es, 1 ≤ g.2.2 := by
  suffices h : ∀ acc : List (κ × ℚ × Nat), (∀ g ∈ acc, 1 ≤ g.2.2) →
      ∀ g ∈ es.foldl (fun acc e => updAssoc (key e) e.amount acc) acc,
        1 ≤ g.2.2 by
    exact h [] (by simp)
  induction es with
  | nil => intro acc hacc; simpa using hacc
  | cons e rest ih =>
    intro acc hacc
    simp only [List.foldl_cons]
    exact ih _ (updAssoc_count_pos _ _ _ hacc)

/-- Keys after an update: the old keys plus (possibly) the new one. -/
theorem updAssoc_mem_key {κ : Type} [DecidableEq κ] (k k2 : κ) (amt : ℚ)
    (l : List (κ × ℚ × Nat)) :
    k2 ∈ (updAssoc k amt l).map (·.1) ↔ k2 ∈ l.map (·.1) ∨ k2 = k := by
  induction l with
  | nil => simp [updAssoc]
  | cons g rest ih =>
    obtain ⟨k0, a, c⟩ := g
    by_cases h : k0 = k
    · subst h
      rw [updAssoc, if_pos rfl]
      simp only [List.map_cons, List.mem_cons]
      tauto
    · rw [updAssoc, if_neg h]
      simp only [List.map_cons, List.mem_cons, ih]
      tauto

/-- A key appears in the grouping iff some grouped record carries it. -/
theorem groupBy_mem_key {κ : Type} [DecidableEq κ] (key : Expense → κ)
    (es : List Expense) (k : κ) :
    k ∈ (groupBy key es).map (·.1) ↔ ∃ e ∈ es, key e = k := by
  suffices h : ∀ acc : List (κ × ℚ × Nat),
      (k ∈ (es.foldl (fun acc e => updAssoc (key e) e.amount acc) acc).map (·.1) ↔
        k ∈ acc.map (·.1) ∨ ∃ e ∈ es, key e = k) by
    simpa using h []
  induction es with
  | nil => intro acc; simp
  | cons e rest ih =>
    intro acc
    simp only [List.foldl_cons, ih, updAssoc_mem_key, List.mem_cons]
    constructor
    · rintro ((h | h) | ⟨e2, he2, hk⟩)
      · exact Or.inl h
      · exact Or.inr ⟨e, Or.inl rfl, h.symm⟩
      · exact Or.inr ⟨e2, Or.inr he2, hk⟩
    · rintro (h | ⟨e2, he2 | he2, hk⟩)
      · exact Or.inl (Or.inl h)
      · subst he2; exact Or.inl (Or.inr hk.symm)
      · exact Or.inr ⟨e2, he2, hk⟩

/-- Looking up an absent key yields the zero default. -/
theorem lookupAssoc_default {κ : Type} [DecidableEq κ] (k : κ)
    (l : List (κ × ℚ × Nat)) (h : k ∉ l.map (·.1)) :
    lookupAssoc k l = (0, 0) := by
  induction l with
  | nil => simp [lookupAssoc]
  | cons g rest ih =>
    obtain ⟨k0, a, c⟩ := g
    simp only [List.map_cons, List.mem_cons] at h
    push_neg at h
    rw [lookupAssoc.eq_def]
    simp only []
    rw [if_neg (fun hh : k0 = k => h.1 hh.symm)]
    exact ih h.2

/-- Looking up a present key returns an entry of the list. -/
theorem lookupAssoc_mem {κ : Type} [DecidableEq κ] (k : κ)
    (l : List (κ × ℚ × Nat)) (h : k ∈ l.map (·.1)) :
    (k, lookupAssoc k l) ∈ l := by
  induction l with
  | nil => simp at h
  | cons g rest ih =>
    obtain ⟨k0, a, c⟩ := g
    by_cases hk : k0 = k
    · subst hk
      rw [lookupAssoc.eq_def]
      simp
    · simp only [List.map_cons, List.mem_cons] at h
      rcases h with h | h
      · exact absurd h.symm hk
      · rw [lookupAssoc.eq_def]
        simp only []
        rw [if_neg hk]
        exact List.mem_cons_of_mem _ (ih h)

/-! ## Helper lemmas: the stable descending sort -/

/-- Insertion produces a permutation of consing. -/
theorem insertDesc_perm (x : BreakdownRow) (l : List BreakdownRow) :
    (insertDesc x l).Perm (x :: l) := by
  induction l with
  | nil => simp [insertDesc]
  | cons y ys ih =>
    rw [insertDesc]
    by_cases h : y.amount ≤ x.amount
    · rw [if_pos h]
    · rw [if_neg h]
      exact ((ih.cons y).trans (List.Perm.swap x y ys))

/-- The sort is a permutation of its input. -/
theorem sortByAmountDesc_perm (l : List BreakdownRow) :
    (sortByAmountDesc l).Perm l := by
  induction l with
  | nil => simp [sortByAmountDesc]
  | cons x xs ih =>
    rw [sortByAmountDesc]
    exact (insertDesc_perm x (sortByAmountDesc xs)).trans (ih.cons x)

/-- Inserting into a descending list keeps it descending. -/
theorem insertDesc_sorted (x : BreakdownRow) (l : List BreakdownRow)
    (hl : l.Pairwise (fun a b => b.amount ≤ a.amount)) :
    (insertDesc x l).Pairwise (fun a b => b.amount ≤ a.amount) := by
  induction l with
  | nil => simp [insertDesc]
  | cons y ys ih =>
    rw [List.pairwise_cons] at hl
    rw [insertDesc]
    by_cases h : y.amount ≤ x.amount
    · rw [if_pos h]
      refine List.Pairwise.cons ?_ (List.Pairwise.cons hl.1 hl.2)
      intro b hb
      rcases List.mem_cons.mp hb with rfl | hb2
      · exact h
      · exact le_trans (hl.1 b hb2) h
    · rw [if_neg h]
      refine List.Pairwise.cons ?_ (ih hl.2)
      intro b hb
      have hmem := (insertDesc_perm x ys).mem_iff.mp hb
      rcases List.mem_cons.mp hmem with rfl | hb2
      · exact le_of_not_le h
      · exact hl.1 b hb2

/-- The sort output is descending in amount. -/
theorem sortByAmountDesc_sorted (l : List BreakdownRow) :
    (sortByAmountDesc l).Pairwise (fun a b => b.amount ≤ a.amount) := by
  induction l with
  | nil => simp [sortByAmountDesc]
  | cons x xs ih => exact insertDesc_sorted x _ ih

/-- Stability, elementwise: the rows of any fixed amount are untouched by an
insertion of a different amount, and an insertion of that amount lands in
front of them. -/
theorem insertDesc_filter (x : BreakdownRow) (l : List BreakdownRow) (q : ℚ) :
    (insertDesc x l).filter (fun r => decide (r.amount = q)) =
      if x.amount = q then x :: l.filter (fun r => decide (r.amount = q))
      else l.filter (fun r => decide (r.amount = q)) := by
  induction l with
  | nil => by_cases h : x.amount = q <;> simp [insertDesc, List.filter, h]
  | cons y ys ih =>
    rw [insertDesc]
    by_cases h : y.amount ≤ x.amount
    · rw [if_pos h]
      by_cases hx : x.amount = q <;> simp [List.filter_cons, hx]
    · rw [if_neg h]
      by_cases hy : y.amount = q
      · have hx : ¬ x.amount = q := by
          intro hx
          exact h (le_of_eq (hy.trans hx.symm))
        simp [List.filter_cons, hy, hx, ih]
      · simp [List.filter_cons, hy, ih]

/-- Stability of the sort: for every amount value, the rows carrying it
appear in the output in their original (first-seen) order. -/
theorem sortByAmountDesc_stable (l : List BreakdownRow) (q : ℚ) :
    (sortByAmountDesc l).filter (fun r => decide (r.amount = q)) =
      l.filter (fun r => decide (r.amount = q)) := by
  induction l with
  | nil => simp [sortByAmountDesc]
  | cons x xs ih =>
    rw [sortByAmountDesc, insertDesc_filter]
    by_cases h : x.amount = q <;> simp [List.filter_cons, h, ih]

/-- Group percentages of a positive total sum to exactly 100. -/
theorem groupBy_pct_sum {κ : Type} [DecidableEq κ] (key : Expense → κ)
    (es : List Expense) (h : 0 < (es.map (·.amount)).sum) :
    ((groupBy key es).map
      (fun g => g.2.1 / (es.map (·.amount)).sum * 100)).sum = 100 := by
  have hne : (es.map (·.amount)).sum ≠ 0 := ne_of_gt h
  have h1 : (fun g : κ × ℚ × Nat => g.2.1 / (es.map (·.amount)).sum * 100) =
      fun g : κ × ℚ × Nat => g.2.1 * (100 / (es.map (·.amount)).sum) := by
    funext g
    field_simp
  rw [h1, List.sum_map_mul_right, groupBy_sum]
  field_simp

/-! ## Helper lemmas: the trend loops -/

/-- One unfolding of the monthly loop. -/
theorem monthLoop_eq (e : DT) (t : Int) (d : List ((Int × Int) × ℚ × Nat))
    (y m : Int) :
    monthLoop e t d y m =
      if DT.le ⟨dateToOrd y m 1, t⟩ e then
        ⟨y, m, (lookupAssoc (y, m) d).1, (lookupAssoc (y, m) d).2⟩ ::
          (if m = 12 then monthLoop e t d (y + 1) 1
           else monthLoop e t d y (m + 1))
      else [] := by
  rw [monthLoop]

/-- The head of a monthly-loop run carries the starting month. -/
theorem monthLoop_head (e : DT) (t : Int) (d : List ((Int × Int) × ℚ × Nat))
    (y m : Int) (r : MonthRow) (h : (monthLoop e t d y m).head? = some r) :
    (r.year, r.month) = (y, m) := by
  rw [monthLoop_eq] at h
  by_cases hg : DT.le ⟨dateToOrd y m 1, t⟩ e
  · rw [if_pos hg] at h
    simp only [List.head?_cons, Option.some.injEq] at h
    subst h
    rfl
  · rw [if_neg hg] at h
    simp at h

/-- Consecutive rows of the monthly loop are consecutive calendar months. -/
theorem monthLoop_chain (e : DT) (t : Int) (d : List ((Int × Int) × ℚ × Nat))
    (y m : Int) :
    List.Chain' (fun a b : MonthRow => (b.year, b.month) = nextYM (a.year, a.month))
      (monthLoop e t d y m) := by
  induction y, m using monthLoop.induct e t d with
  | case1 y m hg ih1 ih2 =>
    by_cases hm : m = 12
    · rw [monthLoop_eq, if_pos hg, if_pos hm]
      refine List.chain'_cons'.mpr ⟨?_, ih1 hm⟩
      intro r1 hr1
      have := monthLoop_head e t d (y + 1) 1 r1 hr1
      simp [this, nextYM, hm]
    · rw [monthLoop_eq, if_pos hg, if_neg hm]
      refine List.chain'_cons'.mpr ⟨?_, ih2⟩
      intro r1 hr1
      have := monthLoop_head e t d y (m + 1) r1 hr1
      simp only [this, nextYM]
      rw [if_neg hm]
  | case2 y m hg =>
    rw [monthLoop_eq, if_neg hg]
    simp

/-- Every emitted month starts on or before the end of the range. -/
theorem monthLoop_sound (e : DT) (t : Int) (d : List ((Int × Int) × ℚ × Nat))
    (y m : Int) :
    ∀ r ∈ monthLoop e t d y m, dateToOrd r.year r.month 1 ≤ e.ord := by
  induction y, m using monthLoop.induct e t d with
  | case1 y m hg ih1 ih2 =>
    intro r hr
    by_cases hm : m = 12
    · rw [monthLoop_eq, if_pos hg, if_pos hm] at hr
      rcases List.mem_cons.mp hr with rfl | hr2
      · show dateToOrd y m 1 ≤ e.ord
        simp only [DT.le, Bool.or_eq_true, decide_eq_true_eq,
          Bool.and_eq_true] at hg
        omega
      · exact ih1 hm r hr2
    · rw [monthLoop_eq, if_pos hg, if_neg hm] at hr
      rcases List.mem_cons.mp hr with rfl | hr2
      · show dateToOrd y m 1 ≤ e.ord
        simp only [DT.le, Bool.or_eq_true, decide_eq_true_eq,
          Bool.and_eq_true] at hg
        omega
      · exact ih2 r hr2
  | case2 y m hg =>
    rw [monthLoop_eq, if_neg hg]
    simp

/-- After the last emitted month the loop guard fails: the month following
the last bucket begins after the end of the range (no month of the range
is skipped at the tail). -/
theorem monthLoop_last (e : DT) (t : Int) (d : List ((Int × Int) × ℚ × Nat))
    (y m : Int) (r : MonthRow)
    (h : (monthLoop e t d y m).getLast? = some r) :
    ¬ (DT.le ⟨dateToOrd (nextYM (r.year, r.month)).1
        (nextYM (r.year, r.month)).2 1, t⟩ e = true) := by
  induction y, m using monthLoop.induct e t d with
  | case1 y m hg ih1 ih2 =>
    by_cases hm : m = 12
    · rw [monthLoop_eq, if_pos hg, if_pos hm] at h
      rcases hrec : monthLoop e t d (y + 1) 1 with _ | ⟨r0, rest⟩
      · rw [hrec] at h
        simp only [List.getLast?_singleton, Option.some.injEq] at h
        subst h
        have hstop := hrec
        rw [monthLoop_eq] at hstop
        by_cases hg2 : DT.le ⟨dateToOrd (y + 1) 1 1, t⟩ e
        · rw [if_pos hg2] at hstop
          simp at hstop
        · simpa [nextYM, hm] using hg2
      · rw [hrec, List.getLast?_cons_cons] at h
        refine ih1 hm ?_
        rw [hrec]
        exact h
    · rw [monthLoop_eq, if_pos hg, if_neg hm] at h
      rcases hrec : monthLoop e t d y (m + 1) with _ | ⟨r0, rest⟩
      · rw [hrec] at h
        simp only [List.getLast?_singleton, Option.some.injEq] at h
        subst h
        have hstop := hrec
        rw [monthLoop_eq] at hstop
        by_cases hg2 : DT.le ⟨dateToOrd y (m + 1) 1, t⟩ e
        · rw [if_pos hg2] at hstop
          simp at hstop
        · simpa [nextYM, hm] using hg2
      · rw [hrec, List.getLast?_cons_cons] at h
        refine ih2 ?_
        rw [hrec]
        exact h
  | case2 y m hg =>
    rw [monthLoop_eq, if_neg hg] at h
    simp at h

/-- Zero-fill: a month bucket whose key is absent from the grouped data has
zero amount and zero count. -/
theorem monthLoop_zero (e : DT) (t : Int) (d : List ((Int × Int) × ℚ × Nat))
    (y m : Int) :
    ∀ r ∈ monthLoop e t d y m, (r.year, r.month) ∉ d.map (·.1) →
      r.amount = 0 ∧ r.count = 0 := by
  induction y, m using monthLoop.induct e t d with
  | case1 y m hg ih1 ih2 =>
    intro r hr hk
    by_cases hm : m = 12
    · rw [monthLoop_eq, if_pos hg, if_pos hm] at hr
      rcases List.mem_cons.mp hr with rfl | hr2
      · have := lookupAssoc_default (κ := Int × Int) (y, m) d (by simpa using hk)
        simp [this]
      · exact ih1 hm r hr2 hk
    · rw [monthLoop_eq, if_pos hg, if_neg hm] at hr
      rcases List.mem_cons.mp hr with rfl | hr2
      · have := lookupAssoc_default (κ := Int × Int) (y, m) d (by simpa using hk)
        simp [this]
      · exact ih2 r hr2 hk
  | case2 y m hg =>
    rw [monthLoop_eq, if_neg hg]
    simp

/-- One unfolding of the daily loop. -/
theorem dayLoop_eq (e : DT) (t : Int) (d : List (Int × ℚ × Nat)) (o : Int) :
    dayLoop e t d o =
      if DT.le ⟨o, t⟩ e then
        ⟨o, (lookupAssoc o d).1, (lookupAssoc o d).2⟩ :: dayLoop e t d (o + 1)
      else [] := by
  rw [dayLoop]

/-- When the loop runs at the range end's time of day, its guard is exactly
an ordinal comparison. -/
theorem dayLoop_guard (e : DT) (o : Int) :
    DT.le ⟨o, e.t⟩ e = true ↔ o ≤ e.ord := by
  simp only [DT.le, Bool.or_eq_true, decide_eq_true_eq, Bool.and_eq_true]
  omega

/-- The daily loop emits exactly one bucket per day of `[o, e.ord]`. -/
theorem dayLoop_len (e : DT) (d : List (Int × ℚ × Nat)) (o : Int) :
    (dayLoop e e.t d o).length = (e.ord + 1 - o).toNat := by
  induction o using dayLoop.induct e e.t d with
  | case1 o hg ih =>
    rw [dayLoop_eq, if_pos hg, List.length_cons, ih]
    have := (dayLoop_guard e o).mp hg
    omega
  | case2 o hg =>
    rw [dayLoop_eq, if_neg hg, List.length_nil]
    have : ¬ o ≤ e.ord := fun hc => hg ((dayLoop_guard e o).mpr hc)
    omega

/-- The head of a daily-loop run carries the starting day. -/
theorem dayLoop_head (e : DT) (t : Int) (d : List (Int × ℚ × Nat)) (o : Int)
    (r : DayRow) (h : (dayLoop e t d o).head? = some r) : r.ord = o := by
  rw [dayLoop_eq] at h
  by_cases hg : DT.le ⟨o, t⟩ e
  · rw [if_pos hg] at h
    simp only [List.head?_cons, Option.some.injEq] at h
    subst h
    rfl
  · rw [if_neg hg] at h
    simp at h

/-- Consecutive rows of the daily loop are consecutive days. -/
theorem dayLoop_chain (e : DT) (t : Int) (d : List (Int × ℚ × Nat)) (o : Int) :
    List.Chain' (fun a b : DayRow => b.ord = a.ord + 1) (dayLoop e t d o) := by
  induction o using dayLoop.induct e t d with
  | case1 o hg ih =>
    rw [dayLoop_eq, if_pos hg]
    refine List.chain'_cons'.mpr ⟨?_, ih⟩
    intro r1 hr1
    exact dayLoop_head e t d (o + 1) r1 hr1
  | case2 o hg =>
    rw [dayLoop_eq, if_neg hg]
    simp

/-- Zero-fill: a day bucket whose key is absent from the grouped data has
zero amount and zero count. -/
theorem dayLoop_zero (e : DT) (t : Int) (d : List (Int × ℚ × Nat)) (o : Int) :
    ∀ r ∈ dayLoop e t d o, r.ord ∉ d.map (·.1) → r.amount = 0 ∧ r.count = 0 := by
  induction o using dayLoop.induct e t d with
  | case1 o hg ih =>
    rw [dayLoop_eq, if_pos hg]
    intro r hr hk
    rcases List.mem_cons.mp hr with rfl | hr2
    · have := lookupAssoc_default (κ := Int) o d (by simpa using hk)
      simp [this]
    · exact ih r hr2 hk
  | case2 o hg =>
    rw [dayLoop_eq, if_neg hg]
    simp

/-- Week-key insertion is a permutation of consing. -/
theorem insertWeekKey_perm (x : Int × Int) (l : List (Int × Int)) :
    (insertWeekKey x l).Perm (x :: l) := by
  induction l with
  | nil => simp [insertWeekKey]
  | cons y ys ih =>
    rw [insertWeekKey]
    by_cases h : weekKeyLe x y
    · rw [if_pos h]
    · rw [if_neg h]
      exact (ih.cons y).trans (List.Perm.swap x y ys)

/-- The week-key sort is a permutation of its input. -/
theorem sortWeekKeys_perm (l : List (Int × Int)) : (sortWeekKeys l).Perm l := by
  induction l with
  | nil => simp [sortWeekKeys]
  | cons x xs ih =>
    rw [sortWeekKeys]
    exact (insertWeekKey_perm x (sortWeekKeys xs)).trans (ih.cons x)

/-! ## Helper lemmas: tag join/split round trip -/

/-- Splitting a comma-free string yields that one piece. -/
theorem splitComma_nocomma (t : List Char) (h : ',' ∉ t) :
    splitComma t = [t] := by
  induction t with
  | nil => rfl
  | cons c rest ih =>
    have hc : ¬ c = ',' := fun hc => h (by simp [hc])
    have hrest : ',' ∉ rest := fun hr => h (List.mem_cons_of_mem _ hr)
    rw [splitComma, if_neg hc, ih hrest]

/-- Splitting after a comma-free prefix peels that prefix off. -/
theorem splitComma_append (t s : List Char) (h : ',' ∉ t) :
    splitComma (t ++ ',' :: s) = t :: splitComma s := by
  induction t with
  | nil =>
    simp only [List.nil_append]
    rw [splitComma, if_pos rfl]
  | cons c rest ih =>
    have hc : ¬ c = ',' := fun hc => h (by simp [hc])
    have hrest : ',' ∉ rest := fun hr => h (List.mem_cons_of_mem _ hr)
    simp only [List.cons_append]
    rw [splitComma, if_neg hc, ih hrest]

/-- Comma-joining well-formed tags and parsing the result restores them. -/
theorem parseTags_joinComma (tags : List (List Char))
    (h : ∀ t ∈ tags, wfTag t) : parseTags (joinComma tags) = tags := by
  induction tags with
  | nil => rfl
  | cons t ts ih =>
    obtain ⟨hne, hnoc, hstrip⟩ := h t (List.mem_cons_self _ _)
    have hts : ∀ u ∈ ts, wfTag u := fun u hu => h u (List.mem_cons_of_mem _ hu)
    cases ts with
    | nil =>
      show parseTags (joinComma [t]) = [t]
      rw [joinComma]
      unfold parseTags
      rw [splitComma_nocomma t hnoc]
      simp [hstrip, hne]
    | cons t2 rest =>
      rw [show joinComma (t :: t2 :: rest) = t ++ ',' :: joinComma (t2 :: rest)
        from rfl]
      unfold parseTags
      rw [splitComma_append t _ hnoc]
      simp only [List.map_cons, List.filter_cons]
      have := ih hts
      unfold parseTags at this
      rw [hstrip]
      simp only [this]
      simp [hne]

/-! ## Claim theorems -/

/-- C1: the claim says `calculate_basic_stats([])` returns an all-zero
summary and never raises; in fact *both* of its `StatisticalSummary(...)`
construction sites pass keywords (`category_totals`,
`payment_method_totals`, `date_from`, `date_to`) that the dataclass does
not declare and omit its mandatory `period_start` / `period_end`, so the
call raises `TypeError` on every input, the empty list included. -/
theorem calculate_basic_stats_always_raises :
    dataclassCallRaisesTypeError calculateBasicStatsEmptyKwargs
      statisticalSummaryFields statisticalSummaryRequiredFields = true ∧
    dataclassCallRaisesTypeError calculateBasicStatsNonEmptyKwargs
      statisticalSummaryFields statisticalSummaryRequiredFields = true ∧
    "category_totals" ∉ statisticalSummaryFields ∧
    "date_from" ∉ statisticalSummaryFields ∧
    "period_start" ∉ calculateBasicStatsEmptyKwargs := by
  decide

/-- C9: the claim describes the frequency-to-monthly conversion of
`estimate_monthly_recurring`; but the loop body reads
`expense.recurring_frequency`, an attribute `Expense` does not have (the
field is `recurring_type`), so the function raises `AttributeError`
whenever at least one active recurring expense is present — e.g. on
`[exRecurringMonthly]`, where the spec's conversion would yield 100. -/
theorem estimate_monthly_recurring_attribute_error :
    "recurring_frequency" ∉ expenseAttributeNames ∧
    "recurring_type" ∈ expenseAttributeNames ∧
    estimateMonthlyRecurringTargets [exRecurringMonthly] = [exRecurringMonthly] ∧
    specMonthlyMultiple exRecurringMonthly.recurring_type
      exRecurringMonthly.amount = 100 := by
  refine ⟨by decide, by decide, by decide, ?_⟩
  simp only [specMonthlyMultiple, exRecurringMonthly]
  rw [if_neg (by decide), if_neg (by decide), if_neg (by decide)]
  simp

/-- C5: `calculateRollover` returns 0 when rollover is disabled or nothing
remains, else `min(remaining, amount * cap / 100)`; under the data-model
invariants `amount ≥ 0` and `cap ≥ 0` the result is never negative and
never exceeds `amount * cap / 100`.  Both the `Budget` method (using the
budget's own `rollover_cap_percent`) and the `BudgetManager` variant
(cap passed as an argument, flag `allow_rollover`) are covered. -/
theorem calculate_rollover_spec (b : Budget) (spent cap : ℚ) :
    ((¬ b.rollover_enabled ∨ b.effective_budget - spent ≤ 0) →
      b.calculate_rollover spent = 0) ∧
    (b.rollover_enabled → 0 < b.effective_budget - spent →
      b.calculate_rollover spent =
        min (b.effective_budget - spent)
          (b.amount * (b.rollover_cap_percent / 100))) ∧
    (0 ≤ b.amount → 0 ≤ b.rollover_cap_percent →
      0 ≤ b.calculate_rollover spent ∧
        b.calculate_rollover spent ≤
          b.amount * (b.rollover_cap_percent / 100)) ∧
    ((¬ b.allow_rollover ∨ b.get_remaining ≤ 0) →
      manager_calculate_rollover b cap = 0) ∧
    (b.allow_rollover → 0 < b.get_remaining →
      manager_calculate_rollover b cap =
        min b.get_remaining (b.amount * (cap / 100))) ∧
    (0 ≤ b.amount → 0 ≤ cap →
      0 ≤ manager_calculate_rollover b cap ∧
        manager_calculate_rollover b cap ≤ b.amount * (cap / 100)) := by
  have hcap : ∀ a c : ℚ, 0 ≤ a → 0 ≤ c → 0 ≤ a * (c / 100) :=
    fun a c ha hc => mul_nonneg ha (div_nonneg hc (by norm_num))
  refine ⟨?_, ?_, ?_, ?_, ?_, ?_⟩
  · rintro (h | h)
    · rw [Budget.calculate_rollover, if_pos h]
    · rw [Budget.calculate_rollover]
      by_cases hr : b.rollover_enabled
      · rw [if_neg (by simpa using hr)]
        simp only [if_pos h]
      · rw [if_pos (by simpa using hr)]
  · intro hr hrem
    rw [Budget.calculate_rollover, if_neg (by simpa using hr)]
    simp only [if_neg (not_le.mpr hrem)]
  · intro ha hc
    rw [Budget.calculate_rollover]
    by_cases hr : b.rollover_enabled
    · rw [if_neg (by simpa using hr)]
      by_cases hrem : b.effective_budget - spent ≤ 0
      · simp only [if_pos hrem]
        exact ⟨le_refl 0, hcap _ _ ha hc⟩
      · simp only [if_neg hrem]
        push_neg at hrem
        exact ⟨le_min (le_of_lt hrem) (hcap _ _ ha hc), min_le_right _ _⟩
    · rw [if_pos (by simpa using hr)]
      exact ⟨le_refl 0, hcap _ _ ha hc⟩
  · rintro (h | h)
    · rw [manager_calculate_rollover, if_pos (by simpa using h)]
    · rw [manager_calculate_rollover]
      by_cases hr : b.allow_rollover
      · rw [if_neg (by simpa using hr)]
        simp only [if_pos h]
      · rw [if_pos (by simpa using hr)]
  · intro hr hrem
    rw [manager_calculate_rollover, if_neg (by simpa using hr)]
    simp only [if_neg (not_le.mpr hrem)]
  · intro ha hc
    rw [manager_calculate_rollover]
    by_cases hr : b.allow_rollover
    · rw [if_neg (by simpa using hr)]
      by_cases hrem : b.get_remaining ≤ 0
      · simp only [if_pos hrem]
        exact ⟨le_refl 0, hcap _ _ ha hc⟩
      · simp only [if_neg hrem]
        push_neg at hrem
        exact ⟨le_min (le_of_lt hrem) (hcap _ _ ha hc), min_le_right _ _⟩
    · rw [if_pos (by simpa using hr)]
      exact ⟨le_refl 0, hcap _ _ ha hc⟩

/-- C5 witness: the rollover-enabled 1000 L budget with 400 L spent and a
50 percent cap rolls over `min(600, 500) = 500`, within the cap and
non-negative. -/
theorem calculate_rollover_spec_witness :
    (exBudgetRollover.rollover_enabled ∧
      0 < exBudgetRollover.effective_budget - 400 ∧
      exBudgetRollover.calculate_rollover 400 =
        min (exBudgetRollover.effective_budget - 400)
          (exBudgetRollover.amount *
            (exBudgetRollover.rollover_cap_percent / 100))) ∧
    (0 ≤ exBudgetRollover.amount ∧ 0 ≤ (50 : ℚ) ∧
      0 ≤ manager_calculate_rollover exBudgetRollover 50 ∧
        manager_calculate_rollover exBudgetRollover 50 ≤
          exBudgetRollover.amount * (50 / 100)) := by
  have h1 : exBudgetRollover.rollover_enabled := by decide
  have h2 : 0 < exBudgetRollover.effective_budget - 400 := by
    norm_num [exBudgetRollover, Budget.effective_budget]
  have h3 : (0 : ℚ) ≤ exBudgetRollover.amount := by norm_num [exBudgetRollover]
  exact ⟨⟨h1, h2, ((calculate_rollover_spec exBudgetRollover 400 50).2.1 h1 h2)⟩,
    ⟨h3, by norm_num,
      (calculate_rollover_spec exBudgetRollover 400 50).2.2.2.2.2 h3 (by norm_num)⟩⟩

/-- C6: `calculate_spent` equals the sum of the amounts of the non-deleted
expenses in the budget's category whose date ordinal (time of day
dropped) lies in `[period_start, period_end]` inclusive; and, being a pure
function of its two arguments in this embedding, calling it twice with
the same inputs yields the same result and mutates nothing. -/
theorem calculate_spent_spec (b : Budget) (es : List Expense) :
    calculate_spent b es = specSpentSum b es ∧
    calculate_spent b es = calculate_spent b es := by
  refine ⟨?_, rfl⟩
  have key : ∀ (l : List Expense) (acc : ℚ),
      l.foldl (fun total e =>
        if e.is_deleted then total
        else if e.category ≠ b.category then total
        else if b.period_start.ord ≤ e.date.ord ∧ e.date.ord ≤ b.period_end.ord
          then total + e.amount
        else total) acc = acc + specSpentSum b l := by
    intro l
    induction l with
    | nil => intro acc; simp [specSpentSum]
    | cons e rest ih =>
      intro acc
      simp only [List.foldl_cons]
      by_cases h1 : e.is_deleted
      · rw [if_pos h1, ih]
        have heq : specSpentSum b (e :: rest) = specSpentSum b rest := by
          unfold specSpentSum
          rw [List.filter_cons]
          simp [h1]
        rw [heq]
      · rw [if_neg h1]
        by_cases h2 : e.category ≠ b.category
        · rw [if_pos h2, ih]
          have heq : specSpentSum b (e :: rest) = specSpentSum b rest := by
            unfold specSpentSum
            rw [List.filter_cons]
            have hb : (e.category == b.category) = false := by
              simpa using h2
            simp [h1, hb]
          rw [heq]
        · rw [if_neg h2]
          push_neg at h2
          by_cases h3 : b.period_start.ord ≤ e.date.ord ∧
              e.date.ord ≤ b.period_end.ord
          · rw [if_pos h3, ih]
            have heq : specSpentSum b (e :: rest) =
                e.amount + specSpentSum b rest := by
              unfold specSpentSum
              rw [List.filter_cons]
              simp [h1, h2, h3.1, h3.2]
            rw [heq]
            ring
          · rw [if_neg h3, ih]
            have heq : specSpentSum b (e :: rest) = specSpentSum b rest := by
              unfold specSpentSum
              rw [List.filter_cons]
              rcases not_and_or.mp h3 with h4 | h4 <;> simp [h1, h2, h4]
            rw [heq]
  have h0 := key es 0
  rw [calculate_spent, h0, zero_add]

/-- C7: corrected — the exclusion of soft-deleted records happens at the
assembling call sites, not inside the leaf aggregators: the monthly
report's category section, the recurring-expense summary and the
budget-vs-actual comparison all pre-filter deleted records, so each is
invariant under restricting its input to the active sub-list.  (The leaf
aggregators themselves include whatever records they are handed; see the
counterexample.) -/
theorem report_sections_ignore_deleted (ms me : DT) (es : List Expense)
    (budgets : List Budget) :
    monthly_report_by_category ms me es =
      monthly_report_by_category ms me (activeRecords es) ∧
    get_recurring_expense_summary es =
      get_recurring_expense_summary (activeRecords es) ∧
    get_budget_vs_actual es budgets =
      get_budget_vs_actual (activeRecords es) budgets := by
  have habs : ∀ (p : Expense → Bool),
      (activeRecords es).filter (fun e => p e && !e.is_deleted) =
        es.filter (fun e => p e && !e.is_deleted) := by
    intro p
    unfold activeRecords
    rw [List.filter_filter]
    refine List.filter_congr ?_
    intro e _
    cases hd : e.is_deleted <;> simp [hd]
  refine ⟨?_, ?_, ?_⟩
  · unfold monthly_report_by_category month_expenses
    have h1 := habs (fun e => DT.le ms e.date && DT.le e.date me)
    simp only [Bool.and_assoc] at h1 ⊢
    rw [h1]
  · unfold get_recurring_expense_summary
    have h1 := habs (fun e => e.is_recurring)
    have h2 := habs (fun e => !e.is_recurring)
    rw [h1, h2]
  · unfold get_budget_vs_actual
    refine List.map_congr_left ?_
    intro b _
    have h1 := habs (fun e =>
      e.category == b.category && DT.le b.period_start e.date &&
        DT.le e.date b.period_end)
    simp only [Bool.and_assoc] at h1 ⊢
    rw [h1]

/-- C7 counterexample: `get_category_breakdown` itself does not exclude
soft-deleted records — on a list holding one soft-deleted expense it
returns a non-empty breakdown, while on the active sub-list (empty) it
returns `[]`. -/
theorem get_category_breakdown_counts_deleted :
    get_category_breakdown [exDeletedSupplies] ≠
      get_category_breakdown (activeRecords [exDeletedSupplies]) := by
  intro h
  have h1 : activeRecords [exDeletedSupplies] = [] := by decide
  rw [h1] at h
  have h2 : get_category_breakdown [] = [] := rfl
  rw [h2] at h
  have h3 : (get_category_breakdown [exDeletedSupplies]).length = 1 := by decide
  rw [h] at h3
  simp at h3

/-- C3 counterexample: the claim classifies against *the budget's own*
thresholds, but `get_budget_status` compares against the manager's config
thresholds (80/95).  `cexBudgetOwnThresholds` has its own thresholds 50/70
(valid per `validate_budget`) and sits at 60 percent, so the claim demands
WARNING, yet the code returns UNDER_BUDGET. -/
theorem get_budget_status_ignores_own_thresholds :
    0 < cexBudgetOwnThresholds.amount ∧
    cexBudgetOwnThresholds.warning_threshold ≤
      cexBudgetOwnThresholds.get_used_percentage ∧
    cexBudgetOwnThresholds.get_used_percentage <
      cexBudgetOwnThresholds.critical_threshold ∧
    get_budget_status cexBudgetOwnThresholds ≠ BudgetStatus.warning := by
  refine ⟨by norm_num [cexBudgetOwnThresholds], ?_, ?_, ?_⟩
  · norm_num [cexBudgetOwnThresholds, Budget.get_used_percentage]
  · norm_num [cexBudgetOwnThresholds, Budget.get_used_percentage]
  · have : get_budget_status cexBudgetOwnThresholds = BudgetStatus.under_budget := by
      norm_num [get_budget_status, cexBudgetOwnThresholds,
        Budget.get_used_percentage, WARNING_THRESHOLD, CRITICAL_THRESHOLD]
    rw [this]
    simp

/-- C3 (amended): budget status is computed from
`percentage = spent / amount * 100` compared against the *manager's*
configured thresholds (config constants 80 and 95), not the budget's own
threshold fields: UNDER iff percentage < 80, WARNING iff 80 ≤ p < 95,
CRITICAL iff 95 ≤ p < 100, OVER iff p ≥ 100; a budget with `amount ≤ 0`
is always UNDER_BUDGET. -/
theorem get_budget_status_spec (b : Budget) :
    (b.amount ≤ 0 → get_budget_status b = BudgetStatus.under_budget) ∧
    (0 < b.amount →
      ((get_budget_status b = BudgetStatus.under_budget ↔
          b.get_used_percentage < WARNING_THRESHOLD) ∧
       (get_budget_status b = BudgetStatus.warning ↔
          WARNING_THRESHOLD ≤ b.get_used_percentage ∧
            b.get_used_percentage < CRITICAL_THRESHOLD) ∧
       (get_budget_status b = BudgetStatus.critical ↔
          CRITICAL_THRESHOLD ≤ b.get_used_percentage ∧
            b.get_used_percentage < 100) ∧
       (get_budget_status b = BudgetStatus.over_budget ↔
          100 ≤ b.get_used_percentage))) := by
  constructor
  · intro h
    rw [get_budget_status, if_pos h]
  · intro h
    have hn : ¬ b.amount ≤ 0 := not_le.mpr h
    rw [get_budget_status, if_neg hn]
    simp only [WARNING_THRESHOLD, CRITICAL_THRESHOLD]
    set p := b.get_used_percentage with hp
    split_ifs with h1 h2 h3 <;>
      refine ⟨⟨fun hh => ?_, fun hh => ?_⟩, ⟨fun hh => ?_, fun hh => ?_⟩,
        ⟨fun hh => ?_, fun hh => ?_⟩, ⟨fun hh => ?_, fun hh => ?_⟩⟩ <;>
      first
        | rfl
        | (exfalso; simp at hh; done)
        | linarith
        | (rcases hh with ⟨hha, hhb⟩; linarith)
        | (exfalso; rcases hh with ⟨hha, hhb⟩; linarith)
        | (constructor <;> linarith)

/-- C3 witness: a zero-amount budget is UNDER_BUDGET, and for the 1000 L
budget at 85 percent the amended four-way classification holds (it is
WARNING there). -/
theorem get_budget_status_spec_witness :
    (exBudgetZero.amount ≤ 0 ∧
      get_budget_status exBudgetZero = BudgetStatus.under_budget) ∧
    (0 < exBudgetWarning.amount ∧
      ((get_budget_status exBudgetWarning = BudgetStatus.under_budget ↔
          exBudgetWarning.get_used_percentage < WARNING_THRESHOLD) ∧
       (get_budget_status exBudgetWarning = BudgetStatus.warning ↔
          WARNING_THRESHOLD ≤ exBudgetWarning.get_used_percentage ∧
            exBudgetWarning.get_used_percentage < CRITICAL_THRESHOLD) ∧
       (get_budget_status exBudgetWarning = BudgetStatus.critical ↔
          CRITICAL_THRESHOLD ≤ exBudgetWarning.get_used_percentage ∧
            exBudgetWarning.get_used_percentage < 100) ∧
       (get_budget_status exBudgetWarning = BudgetStatus.over_budget ↔
          100 ≤ exBudgetWarning.get_used_percentage))) := by
  refine ⟨⟨by norm_num [exBudgetZero], ?_⟩, ⟨by norm_num [exBudgetWarning], ?_⟩⟩
  · exact (get_budget_status_spec exBudgetZero).1 (by norm_num [exBudgetZero])
  · exact (get_budget_status_spec exBudgetWarning).2
      (by norm_num [exBudgetWarning])

/-- C4: `check_expense_against_budget` simulates adding the candidate's
amount to the spend recomputed from the record list and returns at most
one crossing event — exactly the first boundary among over-budget (100),
critical and warning (checked in that order) that the new percentage
reaches while the old percentage (the budget's used percentage, in sync
with the records by `hsync`) had not yet reached it; a boundary already
crossed never fires again.  The returned alert carries the budget's
category and the new percentage. -/
theorem check_expense_against_budget_spec (b : Budget) (es : List Expense)
    (e : Expense) (hsync : b.spent = calculate_spent b es) :
    ((check_expense_against_budget b es e).map (·.type) =
      specFirstCrossing
        (if b.amount ≤ 0 then 0 else calculate_spent b es / b.amount * 100)
        (if 0 < b.amount
          then (calculate_spent b es + e.amount) / b.amount * 100 else 0)) ∧
    (∀ a, check_expense_against_budget b es e = some a →
      a.category = b.category ∧
        a.percentage = (if 0 < b.amount
          then (calculate_spent b es + e.amount) / b.amount * 100 else 0)) := by
  have hold : b.get_used_percentage =
      (if b.amount ≤ 0 then 0 else calculate_spent b es / b.amount * 100) := by
    rw [Budget.get_used_percentage, hsync]
  rw [check_expense_against_budget]
  simp only [hold]
  set oldP := (if b.amount ≤ 0 then 0
    else calculate_spent b es / b.amount * 100) with hoP
  set newP := (if 0 < b.amount
    then (calculate_spent b es + e.amount) / b.amount * 100 else 0) with hnP
  simp only [specFirstCrossing, specCrossingBoundaries, List.find?,
    CRITICAL_THRESHOLD, WARNING_THRESHOLD]
  by_cases h1 : 100 ≤ newP ∧ oldP < 100
  · rw [if_pos h1]
    have hb : (decide ((100 : ℚ) ≤ newP) && decide (oldP < 100)) = true := by
      simp [h1.1, h1.2]
    rw [hb]
    constructor
    · simp
    · intro a ha
      simp only [Option.some.injEq] at ha
      subst ha
      exact ⟨rfl, rfl⟩
  · rw [if_neg h1]
    have hb : (decide ((100 : ℚ) ≤ newP) && decide (oldP < 100)) = false := by
      rcases not_and_or.mp h1 with h | h <;> simp [h]
    rw [hb]
    by_cases h2 : (95 : ℚ) ≤ newP ∧ oldP < 95
    · rw [if_pos h2]
      have hb2 : (decide ((95 : ℚ) ≤ newP) && decide (oldP < 95)) = true := by
        simp [h2.1, h2.2]
      rw [hb2]
      constructor
      · simp
      · intro a ha
        simp only [Option.some.injEq] at ha
        subst ha
        exact ⟨rfl, rfl⟩
    · rw [if_neg h2]
      have hb2 : (decide ((95 : ℚ) ≤ newP) && decide (oldP < 95)) = false := by
        rcases not_and_or.mp h2 with h | h <;> simp [h]
      rw [hb2]
      by_cases h3 : (80 : ℚ) ≤ newP ∧ oldP < 80
      · rw [if_pos h3]
        have hb3 : (decide ((80 : ℚ) ≤ newP) && decide (oldP < 80)) = true := by
          simp [h3.1, h3.2]
        rw [hb3]
        constructor
        · simp
        · intro a ha
          simp only [Option.some.injEq] at ha
          subst ha
          exact ⟨rfl, rfl⟩
      · rw [if_neg h3]
        have hb3 : (decide ((80 : ℚ) ≤ newP) && decide (oldP < 80)) = false := by
          rcases not_and_or.mp h3 with h | h <;> simp [h]
        rw [hb3]
        constructor
        · simp
        · intro a ha
          simp at ha

/-- C4 witness: the October 2026 budget of 1000 L with 750 L spent (in
sync with its one 750 L record), hit with a 70 L candidate (75 to 82
percent), satisfies the characterization; concretely the call returns the
single warning event at 82 percent and not also a critical one. -/
theorem check_expense_against_budget_spec_witness :
    exBudgetC4.spent = calculate_spent exBudgetC4 [exExisting750] ∧
    (((check_expense_against_budget exBudgetC4 [exExisting750]
        exCandidate70).map (·.type) =
      specFirstCrossing
        (if exBudgetC4.amount ≤ 0 then 0
          else calculate_spent exBudgetC4 [exExisting750] / exBudgetC4.amount * 100)
        (if 0 < exBudgetC4.amount
          then (calculate_spent exBudgetC4 [exExisting750] +
            exCandidate70.amount) / exBudgetC4.amount * 100 else 0)) ∧
    (∀ a, check_expense_against_budget exBudgetC4 [exExisting750]
        exCandidate70 = some a →
      a.category = exBudgetC4.category ∧
        a.percentage = (if 0 < exBudgetC4.amount
          then (calculate_spent exBudgetC4 [exExisting750] +
            exCandidate70.amount) / exBudgetC4.amount * 100 else 0))) ∧
    check_expense_against_budget exBudgetC4 [exExisting750] exCandidate70 =
      some ⟨AlertType.warning, "Supplies", 82⟩ := by
  have hsync : exBudgetC4.spent = calculate_spent exBudgetC4 [exExisting750] := by
    norm_num [calculate_spent, exBudgetC4, exExisting750, Budget.period_end,
      addMonthsClamp, ordToDate, dateToOrd, daysBeforeYear, daysBeforeMonth,
      daysInMonth, isLeap]
  refine ⟨hsync,
    check_expense_against_budget_spec exBudgetC4 [exExisting750]
      exCandidate70 hsync, ?_⟩
  rw [check_expense_against_budget, ← hsync]
  norm_num [exBudgetC4, exCandidate70, Budget.get_used_percentage,
    CRITICAL_THRESHOLD, WARNING_THRESHOLD]

/-- Shared characterization of `breakdownBy` (the common body of the two
breakdown functions): percentages sum to 100 when the overall total is
positive and to 0 when it is 0; the output is sorted descending by
amount; and for every amount value the rows carrying it keep their
first-seen order (stability of the final sort). -/
theorem breakdownBy_props (key : Expense → String) (es : List Expense) :
    (0 < (es.map (·.amount)).sum →
      ((breakdownBy key es).map (·.percentage)).sum = 100) ∧
    ((es.map (·.amount)).sum = 0 →
      ((breakdownBy key es).map (·.percentage)).sum = 0) ∧
    (breakdownBy key es).Pairwise (fun a b => b.amount ≤ a.amount) ∧
    (∀ q : ℚ, (breakdownBy key es).filter (fun r => decide (r.amount = q)) =
      ((groupBy key es).map (fun g =>
        ({ key := g.1, amount := g.2.1, count := g.2.2,
           percentage := if 0 < (es.map (·.amount)).sum
             then g.2.1 / (es.map (·.amount)).sum * 100 else 0,
           average := if 0 < g.2.2 then g.2.1 / (g.2.2 : ℚ) else 0 } :
          BreakdownRow))).filter (fun r => decide (r.amount = q))) := by
  by_cases hes : es = []
  · subst hes
    refine ⟨?_, ?_, ?_, ?_⟩
    · intro h
      simp at h
    · intro _
      simp [breakdownBy]
    · simp [breakdownBy]
    · intro q
      simp [breakdownBy, groupBy]
  · have hunfold : breakdownBy key es = sortByAmountDesc
        ((groupBy key es).map (fun g =>
          ({ key := g.1, amount := g.2.1, count := g.2.2,
             percentage := if 0 < (es.map (·.amount)).sum
               then g.2.1 / (es.map (·.amount)).sum * 100 else 0,
             average := if 0 < g.2.2 then g.2.1 / (g.2.2 : ℚ) else 0 } :
            BreakdownRow))) := by
      rw [breakdownBy, if_neg hes]
    refine ⟨?_, ?_, ?_, ?_⟩
    · intro h
      rw [hunfold]
      rw [((sortByAmountDesc_perm _).map (·.percentage)).sum_eq]
      rw [List.map_map]
      have hfun : ((fun r : BreakdownRow => r.percentage) ∘
          (fun g : String × ℚ × Nat =>
            ({ key := g.1, amount := g.2.1, count := g.2.2,
               percentage := if 0 < (es.map (·.amount)).sum
                 then g.2.1 / (es.map (·.amount)).sum * 100 else 0,
               average := if 0 < g.2.2 then g.2.1 / (g.2.2 : ℚ) else 0 } :
              BreakdownRow))) =
          fun g : String × ℚ × Nat =>
            g.2.1 / (es.map (·.amount)).sum * 100 := by
        funext g
        simp [if_pos h]
      rw [hfun]
      exact groupBy_pct_sum key es h
    · intro h
      rw [hunfold]
      rw [((sortByAmountDesc_perm _).map (·.percentage)).sum_eq]
      rw [List.map_map]
      have hnot : ¬ (0 < (es.map (·.amount)).sum) := by
        rw [h]
        exact lt_irrefl 0
      have hfun : ((fun r : BreakdownRow => r.percentage) ∘
          (fun g : String × ℚ × Nat =>
            ({ key := g.1, amount := g.2.1, count := g.2.2,
               percentage := if 0 < (es.map (·.amount)).sum
                 then g.2.1 / (es.map (·.amount)).sum * 100 else 0,
               average := if 0 < g.2.2 then g.2.1 / (g.2.2 : ℚ) else 0 } :
              BreakdownRow))) =
          fun _ : String × ℚ × Nat => (0 : ℚ) := by
        funext g
        simp [if_neg hnot]
      rw [hfun]
      simp
    · rw [hunfold]
      exact sortByAmountDesc_sorted _
    · intro q
      rw [hunfold]
      exact sortByAmountDesc_stable _ q

/-- C8: both `get_category_breakdown` and `get_payment_method_breakdown`
return groups whose percentages sum to exactly 100 when the overall total
is positive and to 0 when it is 0, sorted descending by summed amount with
ties kept in first-seen input order. -/
theorem breakdown_percentages_sorted_stable (es : List Expense) :
    ((0 < (es.map (·.amount)).sum →
      ((get_category_breakdown es).map (·.percentage)).sum = 100) ∧
    ((es.map (·.amount)).sum = 0 →
      ((get_category_breakdown es).map (·.percentage)).sum = 0) ∧
    (get_category_breakdown es).Pairwise (fun a b => b.amount ≤ a.amount) ∧
    (∀ q : ℚ, (get_category_breakdown es).filter
        (fun r => decide (r.amount = q)) =
      ((groupBy (·.category) es).map (fun g =>
        ({ key := g.1, amount := g.2.1, count := g.2.2,
           percentage := if 0 < (es.map (·.amount)).sum
             then g.2.1 / (es.map (·.amount)).sum * 100 else 0,
           average := if 0 < g.2.2 then g.2.1 / (g.2.2 : ℚ) else 0 } :
          BreakdownRow))).filter (fun r => decide (r.amount = q)))) ∧
    ((0 < (es.map (·.amount)).sum →
      ((get_payment_method_breakdown es).map (·.percentage)).sum = 100) ∧
    ((es.map (·.amount)).sum = 0 →
      ((get_payment_method_breakdown es).map (·.percentage)).sum = 0) ∧
    (get_payment_method_breakdown es).Pairwise
      (fun a b => b.amount ≤ a.amount) ∧
    (∀ q : ℚ, (get_payment_method_breakdown es).filter
        (fun r => decide (r.amount = q)) =
      ((groupBy (·.payment_method) es).map (fun g =>
        ({ key := g.1, amount := g.2.1, count := g.2.2,
           percentage := if 0 < (es.map (·.amount)).sum
             then g.2.1 / (es.map (·.amount)).sum * 100 else 0,
           average := if 0 < g.2.2 then g.2.1 / (g.2.2 : ℚ) else 0 } :
          BreakdownRow))).filter (fun r => decide (r.amount = q)))) :=
  ⟨breakdownBy_props (·.category) es, breakdownBy_props (·.payment_method) es⟩

/-- C8 witness: on the spec's own example list (Supplies 100, Supplies
200, Equipment 50) the total is positive and the characterization holds;
on the empty list the total is 0. -/
theorem breakdown_percentages_sorted_stable_witness :
    (0 < (([exSupplies100, exSupplies200, exEquipment50].map
        (Expense.amount)).sum) ∧
      ((get_category_breakdown
        [exSupplies100, exSupplies200, exEquipment50]).map
          (·.percentage)).sum = 100) ∧
    ((([] : List Expense).map (Expense.amount)).sum = 0 ∧
      ((get_category_breakdown ([] : List Expense)).map
        (·.percentage)).sum = 0) := by
  have htot : 0 < (([exSupplies100, exSupplies200, exEquipment50].map
      (Expense.amount)).sum) := by
    norm_num [exSupplies100, exSupplies200, exEquipment50]
  have h0 : (([] : List Expense).map (Expense.amount)).sum = 0 := by simp
  exact ⟨⟨htot, (breakdown_percentages_sorted_stable
      [exSupplies100, exSupplies200, exEquipment50]).1.1 htot⟩,
    ⟨h0, (breakdown_percentages_sorted_stable ([] : List Expense)).1.2.1 h0⟩⟩

/-- C2 counterexample: on an *empty* record list `get_monthly_trend`
returns `[]` although the requested 12-month range spans 13 calendar
buckets; and `get_weekly_trend`'s output length depends on data sparsity
even over a fixed range — one record gives one bucket, adding a record
two weeks earlier gives two (never the full week count, and no zero-fill
of the gap week between them). -/
theorem trend_zero_fill_counterexample :
    get_monthly_trend exNow ([] : List Expense) 12 = [] ∧
    specMonthBucketCount exNow 12 = 13 ∧
    (get_weekly_trend exNow [exSupplies100] 12).length ≠
      (get_weekly_trend exNow [exSupplies100, exFarWeek] 12).length := by
  refine ⟨rfl, by decide, by decide⟩

/-- C2 (amended): when the input list is empty all three trends return
`[]`.  On a non-empty list: the monthly trend's buckets start at the
month of `now - months*30 days`, step through consecutive calendar
months with no gaps, never start past `now`, stop only once the next
month would start past `now`, and are zero-filled for months holding no
records; the daily trend has exactly `days + 1` buckets, one per
consecutive day from `now - days`, zero-filled likewise; the weekly
trend instead emits only weeks that contain at least one record. -/
theorem trend_buckets_spec (now : DT) (es : List Expense)
    (months days weeks : Nat) (hne : es ≠ []) :
    (get_monthly_trend now ([] : List Expense) months = [] ∧
     get_daily_trend now ([] : List Expense) days = [] ∧
     get_weekly_trend now ([] : List Expense) weeks = []) ∧
    ((∀ r, (get_monthly_trend now es months).head? = some r →
        (r.year, r.month) =
          ((now.subDays (months * 30)).year,
            (now.subDays (months * 30)).month)) ∧
     List.Chain' (fun a b : MonthRow =>
        (b.year, b.month) = nextYM (a.year, a.month))
       (get_monthly_trend now es months) ∧
     (∀ r ∈ get_monthly_trend now es months,
        dateToOrd r.year r.month 1 ≤ now.ord) ∧
     (∀ r, (get_monthly_trend now es months).getLast? = some r →
        ¬ (DT.le ⟨dateToOrd (nextYM (r.year, r.month)).1
            (nextYM (r.year, r.month)).2 1,
            (now.subDays (months * 30)).t⟩ now = true)) ∧
     (∀ r ∈ get_monthly_trend now es months,
        (∀ e ∈ es, monthKeyOf e.date ≠ (r.year, r.month)) →
          r.amount = 0 ∧ r.count = 0)) ∧
    ((get_daily_trend now es days).length = days + 1 ∧
     List.Chain' (fun a b : DayRow => b.ord = a.ord + 1)
       (get_daily_trend now es days) ∧
     (∀ r, (get_daily_trend now es days).head? = some r →
        r.ord = now.ord - days) ∧
     (∀ r ∈ get_daily_trend now es days,
        (∀ e ∈ es, e.date.ord ≠ r.ord) → r.amount = 0 ∧ r.count = 0)) ∧
    (∀ r ∈ get_weekly_trend now es weeks, 1 ≤ r.count) := by
  have hm : get_monthly_trend now es months =
      monthLoop now (now.subDays (months * 30)).t
        (groupBy (fun e => monthKeyOf e.date)
          (es.filter (fun e => DT.le (now.subDays (months * 30)) e.date)))
        (now.subDays (months * 30)).year (now.subDays (months * 30)).month := by
    simp only [get_monthly_trend, if_neg hne]
  have hd : get_daily_trend now es days =
      dayLoop now (now.subDays days).t
        (groupBy (fun e => e.date.ord)
          (es.filter (fun e => DT.le (now.subDays days) e.date)))
        (now.subDays days).ord := by
    simp only [get_daily_trend, if_neg hne]
  have hw : get_weekly_trend now es weeks =
      (sortWeekKeys ((groupBy (fun e => weekKeyOf e.date)
          (es.filter (fun e => DT.le (now.subDays (weeks * 7)) e.date))).map
            (·.1))).map (fun k =>
        ⟨k.1, k.2,
          (lookupAssoc k (groupBy (fun e => weekKeyOf e.date)
            (es.filter (fun e => DT.le (now.subDays (weeks * 7)) e.date)))).1,
          (lookupAssoc k (groupBy (fun e => weekKeyOf e.date)
            (es.filter (fun e => DT.le (now.subDays (weeks * 7)) e.date)))).2⟩) := by
    simp only [get_weekly_trend, if_neg hne]
  refine ⟨⟨rfl, rfl, rfl⟩, ⟨?_, ?_, ?_, ?_, ?_⟩, ⟨?_, ?_, ?_, ?_⟩, ?_⟩
  · rw [hm]
    intro r hr
    exact monthLoop_head _ _ _ _ _ r hr
  · rw [hm]
    exact monthLoop_chain _ _ _ _ _
  · rw [hm]
    exact monthLoop_sound _ _ _ _ _
  · rw [hm]
    intro r hr
    exact monthLoop_last _ _ _ _ _ r hr
  · rw [hm]
    intro r hr hnone
    refine monthLoop_zero _ _ _ _ _ r hr ?_
    intro hmem
    rcases (groupBy_mem_key _ _ _).mp hmem with ⟨e, he, hke⟩
    exact hnone e (List.mem_filter.mp he).1 hke
  · rw [hd]
    have ht : (now.subDays days).t = now.t := rfl
    rw [ht, dayLoop_len]
    have : (now.subDays days).ord = now.ord - days := rfl
    rw [this]
    omega
  · rw [hd]
    exact dayLoop_chain _ _ _ _
  · rw [hd]
    intro r hr
    exact dayLoop_head _ _ _ _ r hr
  · rw [hd]
    intro r hr hnone
    refine dayLoop_zero _ _ _ _ r hr ?_
    intro hmem
    rcases (groupBy_mem_key _ _ _).mp hmem with ⟨e, he, hke⟩
    exact hnone e (List.mem_filter.mp he).1 hke
  · rw [hw]
    intro r hr
    rcases List.mem_map.mp hr with ⟨k, hk, hfk⟩
    have hk2 : k ∈ (groupBy (fun e => weekKeyOf e.date)
        (es.filter (fun e => DT.le (now.subDays (weeks * 7)) e.date))).map
          (·.1) := (sortWeekKeys_perm _).mem_iff.mp hk
    have hmem := lookupAssoc_mem _ _ hk2
    have hpos := groupBy_count_pos (fun e => weekKeyOf e.date)
      (es.filter (fun e => DT.le (now.subDays (weeks * 7)) e.date)) _ hmem
    rw [← hfk]
    exact hpos

/-- C2 amended-claim witness: on the one-record list the daily trend over
30 days has exactly 31 buckets. -/
theorem trend_buckets_spec_witness :
    ([exSupplies100] : List Expense) ≠ [] ∧
    (get_daily_trend exNow [exSupplies100] 30).length = 30 + 1 := by
  have hne : ([exSupplies100] : List Expense) ≠ [] := by simp
  exact ⟨hne,
    (trend_buckets_spec exNow [exSupplies100] 12 30 12 hne).2.2.1.1⟩

/-- C10 (amended): for a record with a non-empty id, well-formed tags
(non-empty, comma-free, no surrounding whitespace) and optional recurring
strings that are not present-but-empty, `from_dict(to_dict(e))` restores
every field exactly, except that the date-only cells (`date`,
`next_due_date`, `last_recurring_date`) come back at day precision
(midnight) and the timestamp cells (`deleted_at`, `created_at`,
`updated_at`) come back truncated to whole seconds — the row format
stores them as `'%Y-%m-%d %H:%M:%S'`, discarding microseconds. -/
theorem expense_row_roundtrip (e : Expense) (freshId : String) (now : DT)
    (hid : e.expense_id ≠ "")
    (htags : ∀ t ∈ e.tags, wfTag t)
    (hrt : e.recurring_type ≠ some "")
    (hra : e.recurring_action ≠ some "")
    (hrp : e.recurring_parent_id ≠ some "") :
    expenseRoundtrip e freshId now =
      { e with
        date := ⟨e.date.ord, 0⟩
        next_due_date := e.next_due_date.map (fun d => ⟨d.ord, 0⟩)
        last_recurring_date := e.last_recurring_date.map (fun d => ⟨d.ord, 0⟩)
        deleted_at := e.deleted_at.map
          (fun d => ⟨d.ord, d.t / 1000000 * 1000000⟩)
        created_at := ⟨e.created_at.ord, e.created_at.t / 1000000 * 1000000⟩
        updated_at := ⟨e.updated_at.ord,
          e.updated_at.t / 1000000 * 1000000⟩ } := by
  have htagseq : parseTags (if e.tags = [] then [] else joinComma e.tags) =
      e.tags := by
    by_cases h : e.tags = []
    · rw [if_pos h, h]
      rfl
    · rw [if_neg h]
      exact parseTags_joinComma e.tags htags
  have hrteq : (if e.recurring_type.getD "" = "" then none
      else some (e.recurring_type.getD "")) = e.recurring_type := by
    cases hv : e.recurring_type with
    | none => simp
    | some s =>
      have hs : ¬ s = "" := fun h2 => hrt (by rw [hv, h2])
      simp [hs]
  have hraeq : (if e.recurring_action.getD "" = "" then none
      else some (e.recurring_action.getD "")) = e.recurring_action := by
    cases hv : e.recurring_action with
    | none => simp
    | some s =>
      have hs : ¬ s = "" := fun h2 => hra (by rw [hv, h2])
      simp [hs]
  have hrpeq : (if e.recurring_parent_id.getD "" = "" then none
      else some (e.recurring_parent_id.getD "")) = e.recurring_parent_id := by
    cases hv : e.recurring_parent_id with
    | none => simp
    | some s =>
      have hs : ¬ s = "" := fun h2 => hrp (by rw [hv, h2])
      simp [hs]
  unfold expenseRoundtrip Expense.from_dict Expense.to_dict
  simp only [htagseq, hrteq, hraeq, hrpeq, if_neg hid, Option.map_map]
  rfl

/-- C10 amended-claim witness: the fully populated `exRoundtrip` meets the
hypotheses and its round trip equals the normalized record. -/
theorem expense_row_roundtrip_witness :
    (exRoundtrip.expense_id ≠ "" ∧ (∀ t ∈ exRoundtrip.tags, wfTag t) ∧
      exRoundtrip.recurring_type ≠ some "" ∧
      exRoundtrip.recurring_action ≠ some "" ∧
      exRoundtrip.recurring_parent_id ≠ some "") ∧
    expenseRoundtrip exRoundtrip "fresh-uuid" exNow =
      { exRoundtrip with
        date := ⟨exRoundtrip.date.ord, 0⟩
        next_due_date := exRoundtrip.next_due_date.map (fun d => ⟨d.ord, 0⟩)
        last_recurring_date := exRoundtrip.last_recurring_date.map
          (fun d => ⟨d.ord, 0⟩)
        deleted_at := exRoundtrip.deleted_at.map
          (fun d => ⟨d.ord, d.t / 1000000 * 1000000⟩)
        created_at := ⟨exRoundtrip.created_at.ord,
          exRoundtrip.created_at.t / 1000000 * 1000000⟩
        updated_at := ⟨exRoundtrip.updated_at.ord,
          exRoundtrip.updated_at.t / 1000000 * 1000000⟩ } :=
  ⟨⟨by decide, by decide, by decide, by decide, by decide⟩,
    expense_row_roundtrip exRoundtrip "fresh-uuid" exNow (by decide)
      (by decide) (by decide) (by decide) (by decide)⟩

/-- C10 counterexample: `cexRoundtrip` is a *valid* record (its `validate`
returns no errors), yet the round trip does not restore it: its tag
`"a,b"` comes back as the two tags `"a"` and `"b"`, and its `created_at`
(one microsecond past midnight) comes back truncated — neither change is
a day-level date normalization, so the claim as stated fails. -/
theorem expense_row_roundtrip_failure :
    Expense.validate exNow cexRoundtrip = [] ∧
    (expenseRoundtrip cexRoundtrip "fresh-uuid" exNow).tags ≠
      cexRoundtrip.tags ∧
    (expenseRoundtrip cexRoundtrip "fresh-uuid" exNow).created_at ≠
      cexRoundtrip.created_at := by
  refine ⟨?_, by decide, by decide⟩
  norm_num [Expense.validate, cexRoundtrip, exNow, DT.le]
  exact ⟨by decide, by decide, by decide⟩
